import Mathlib

/-!
# flap: a shallow embedding of `flap.c`

The simulation core of the terminal game (`update_player`, `update_pipes`,
`collide_player_with_pipes`, `update_pipe_speed`, `init_state`, `put_rect`,
`draw_single_pipe`) is translated function by function.

Modelling conventions:

* C `double` / `float` values are modelled by exact rationals (`ℚ`); infinities
  and NaN are outside the model. The functions are translated in exact
  arithmetic; `update_pipes` is translated a second time with the IEEE 754
  rounding of its operations (`update_pipes_fp`), for the one statement whose
  exact bound rounding can break.
* C `int` values are modelled by `Int`; no operation in the modelled code
  overflows on the ranges the program uses.
* The obstacle pool `Pipe pipes[PIPE_COUNT]` is a `List Pipe`, addressed by
  index; the loops run over the indices `0 .. PIPE_COUNT - 1` as in the source.
* `rand()` is an oracle: `update_pipes` receives a function `r : Nat → Nat`,
  and `r i` is the (non-negative) value `rand()` returns when slot `i` is
  recycled during that call.
* Terminal output of `put_rect` is the list of cells written, in order.
* A `double` passed where an `int` is expected is truncated toward zero
  (`double_to_int`).
-/

namespace Flap

/-! ## Constants (`#define`s of the source) -/

def FLOOR_Y : Int := 40
def WIDTH : Int := 64
def GRAVITY : Int := 50
def JUMP_VEL : Int := 20
def PIPE_GAP : Int := 8
def PIPE_SPACING : Int := 30
def PIPE_START_SPEED : Int := 15
def PIPE_ACCELERATION : ℚ := 1 / 2
def PIPE_MAX_SPEED : Int := 35
def PIPE_WIDTH : Int := 5
def PIPE_COUNT : Nat := 8
def PIPE_SPREAD : Int := 8

/-! ## Data model -/

/-- The C struct `Player`. -/
structure Player where
  x : ℚ
  y : ℚ
  ly : ℚ
  vy : ℚ
  dead : Int
  deriving DecidableEq, Repr

/-- The C struct `Pipe`; `y` is the gap centre row. -/
structure Pipe where
  x : ℚ
  lx : ℚ
  y : Int
  scored : Int
  deriving DecidableEq, Repr

/-- The C struct `State`. -/
structure State where
  player : Player
  pipes : List Pipe
  score : Int
  pipe_speed : ℚ
  deriving DecidableEq, Repr

/-! ## `update_player` -/

/-- The velocity after the jump / gravity branch of `update_player`
(lines 110-114), before the floor test. -/
def integrated_vy (p : Player) (dt : ℚ) (should_jump : Int) : ℚ :=
  if p.dead = 0 ∧ should_jump ≠ 0 then -(JUMP_VEL : ℚ) else p.vy + (GRAVITY : ℚ) * dt

/-- The position after `p->y += p->vy * dt` (line 115), before the floor test. -/
def integrated_y (p : Player) (dt : ℚ) (should_jump : Int) : ℚ :=
  p.y + integrated_vy p dt should_jump * dt

/-- The C function `update_player`. -/
def update_player (p : Player) (dt : ℚ) (should_jump : Int) : Player :=
  let p1 : Player := { p with ly := p.y }
  let p2 : Player := { p1 with vy := integrated_vy p dt should_jump }
  let p3 : Player := { p2 with y := p2.y + p2.vy * dt }
  if p3.y ≥ (FLOOR_Y : ℚ) then
    { p3 with dead := 1, y := (FLOOR_Y : ℚ), vy := 0 }
  else
    p3

/-! ## `update_pipes` -/

/-- The inner scan of `update_pipes` (lines 131-138): starting from
`nx = 0, ny = 0`, keep the first pipe with the strictly largest `x > nx`. -/
def scan_max (pipes : List Pipe) : ℚ × Int :=
  (List.range PIPE_COUNT).foldl
    (fun (acc : ℚ × Int) (j : Nat) =>
      match pipes[j]? with
      | none => acc
      | some q => if q.x > acc.1 then (q.x, q.y) else acc)
    (0, 0)

/-- Lines 140-142: the new gap centre from the reference `ny` and the value
`rnd` returned by `rand()`. -/
def recycle_y (ny : Int) (rnd : Nat) : Int :=
  let ny1 := ny + ((rnd : Int) % (PIPE_SPREAD * 2) - PIPE_SPREAD)
  let ny2 := if ny1 ≥ FLOOR_Y then FLOOR_Y - 1 else ny1
  if ny2 ≤ PIPE_GAP then PIPE_GAP + 1 else ny2

/-- One iteration of the outer loop of `update_pipes` for slot `i`;
`d` is the product `pipe_speed * dt`. -/
def update_pipe_at (d : ℚ) (r : Nat → Nat) (pipes : List Pipe) (i : Nat) : List Pipe :=
  match pipes[i]? with
  | none => pipes
  | some p =>
    let p1 : Pipe := { p with lx := p.x, x := p.x - d }
    let pipes1 := pipes.set i p1
    if p1.x < -(PIPE_WIDTH : ℚ) then
      let m := scan_max pipes1
      let nx := m.1 + ((PIPE_WIDTH + PIPE_SPACING : Int) : ℚ)
      let ny := recycle_y m.2 (r i)
      pipes1.set i { p1 with x := nx, y := ny, lx := nx, scored := 0 }
    else
      pipes1

/-- The C function `update_pipes`. -/
def update_pipes (pipes : List Pipe) (pipe_speed dt : ℚ) (r : Nat → Nat) : List Pipe :=
  (List.range PIPE_COUNT).foldl (update_pipe_at (pipe_speed * dt) r) pipes

/-! ## `update_pipes` with the rounding of the machine arithmetic

The definitions above compute positions in exact rationals. The ones below repeat
`update_pipes` with the IEEE 754 rounding of its two inexact operations made explicit:
the `float` product `pipe_speed * dt` and the `double` results stored in `p->x` and
`nx`. Values beyond the largest finite number of a format are not modelled. -/

/-- The test of line 181: the player's x lies in `[pipe.x, pipe.x + PIPE_WIDTH)`. -/
def straddles (player : Player) (pipe : Pipe) : Prop :=
  player.x ≥ pipe.x ∧ player.x < pipe.x + (PIPE_WIDTH : ℚ)

instance (player : Player) (pipe : Pipe) : Decidable (straddles player pipe) := by
  unfold straddles; infer_instance

/-- The test of line 182: the player's y is on the pipe body. -/
def hits_body (player : Player) (pipe : Pipe) : Prop :=
  player.y ≥ (pipe.y : ℚ) ∨ player.y ≤ ((pipe.y - PIPE_GAP + 1 : Int) : ℚ)

instance (player : Player) (pipe : Pipe) : Decidable (hits_body player pipe) := by
  unfold hits_body; infer_instance

/-- The body of the straddle branch (lines 182-187) for `pipe = pipes[i]`. -/
def collide_at (player : Player) (pipes : List Pipe) (score : Int) (i : Nat) (pipe : Pipe) :
    Player × List Pipe × Int :=
  if hits_body player pipe then
    ({ player with dead := 1 }, pipes, score)
  else if pipe.scored = 0 then
    (player, pipes.set i { pipe with scored := 1 }, score + 1)
  else
    (player, pipes, score)

/-- The loop of `collide_player_with_pipes` from index `i`, with `n` iterations left;
the straddle branch ends the loop (`return`). -/
def collide_from (player : Player) (pipes : List Pipe) (score : Int) :
    Nat → Nat → Player × List Pipe × Int
  | 0, _ => (player, pipes, score)
  | n + 1, i =>
    match pipes[i]? with
    | none => collide_from player pipes score n (i + 1)
    | some pipe =>
      if straddles player pipe then
        collide_at player pipes score i pipe
      else
        collide_from player pipes score n (i + 1)

/-- The C function `collide_player_with_pipes`. -/
def collide_player_with_pipes (player : Player) (pipes : List Pipe) (score : Int) :
    Player × List Pipe × Int :=
  collide_from player pipes score PIPE_COUNT 0

/-! ## `init_state`, `update_pipe_speed` -/

/-- The effect of `memset(st, 0, sizeof(State))`. -/
def zero_state : State :=
  { player := { x := 0, y := 0, ly := 0, vy := 0, dead := 0 }
    pipes := List.replicate PIPE_COUNT { x := 0, lx := 0, y := 0, scored := 0 }
    score := 0
    pipe_speed := 0 }

/-- The loop of lines 203-205: every slot is placed at `-PIPE_WIDTH - 1`. -/
def init_pipes_loop (pipes : List Pipe) : List Pipe :=
  (List.range PIPE_COUNT).foldl
    (fun (ps : List Pipe) (i : Nat) =>
      match ps[i]? with
      | none => ps
      | some p => ps.set i { p with x := -(PIPE_WIDTH : ℚ) - 1 })
    pipes

/-- Assignment to the field `x` of `pipes[i]`. -/
def set_pipe_x (pipes : List Pipe) (i : Nat) (v : ℚ) : List Pipe :=
  match pipes[i]? with
  | none => pipes
  | some p => pipes.set i { p with x := v }

/-- Assignment to the field `y` of `pipes[i]`. -/
def set_pipe_y (pipes : List Pipe) (i : Nat) (v : Int) : List Pipe :=
  match pipes[i]? with
  | none => pipes
  | some p => pipes.set i { p with y := v }

/-- The C function `init_state`; the argument is the state being overwritten. -/
def init_state (_st : State) : State :=
  let st := zero_state
  let st := { st with player := { st.player with x := 10 } }
  let st := { st with player := { st.player with y := (FLOOR_Y : ℚ) * (1 / 2) } }
  let st := { st with pipes := init_pipes_loop st.pipes }
  let st := { st with pipes := set_pipe_x st.pipes 0 (WIDTH : ℚ) }
  let st := { st with pipes := set_pipe_y st.pipes 0 ((FLOOR_Y + PIPE_GAP) >>> 1) }
  { st with pipe_speed := (PIPE_START_SPEED : ℚ) }

/-- The C function `update_pipe_speed`. -/
def update_pipe_speed (pipe_speed dt : ℚ) : ℚ :=
  let s := pipe_speed + dt * PIPE_ACCELERATION
  if s > (PIPE_MAX_SPEED : ℚ) then (PIPE_MAX_SPEED : ℚ) else s

/-! ## `put_rect` -/

/-- One character cell written to the terminal. -/
structure Cell where
  row : Int
  col : Int
  ch : Int
  deriving DecidableEq, Repr

/-- The width `w` after the two clipping assignments of `put_rect`
(lines 32-36). -/
def clipped_w (x w : Int) : Int :=
  let w1 := if x + w - 1 > WIDTH then WIDTH - x else w
  if x < 1 then w1 + (x - 1) else w1

/-- The start column `x` after the clipping of `put_rect` (lines 33-36). -/
def clipped_x (x : Int) : Int :=
  if x < 1 then 1 else x

/-- The C function `put_rect`: the cells written, in order. -/
def put_rect (x y w h : Int) (fill : Int) : List Cell :=
  if x > WIDTH then []
  else
    let w2 := clipped_w x w
    let x2 := clipped_x x
    if w2 ≤ 0 then []
    else
      (List.range h.toNat).flatMap (fun (di : Nat) =>
        let i : Int := y + di
        if y < 0 then []
        else (List.range w2.toNat).map (fun (j : Nat) => { row := i, col := x2 + j, ch := fill }))

/-! ## `draw_single_pipe` -/

/-- The C conversion of a `double` to `int` when it is passed as an `int` argument:
truncation toward zero. -/
def double_to_int (q : ℚ) : Int :=
  if 0 ≤ q then ⌊q⌋ else ⌈q⌉

/-- The erase step of `draw_single_pipe` (lines 153-154): two blank rectangles at `lx`. -/
def erase_cells (p : Pipe) : List Cell :=
  put_rect (double_to_int p.lx) p.y PIPE_WIDTH (FLOOR_Y - p.y) 32 ++
  put_rect (double_to_int p.lx) 1 PIPE_WIDTH (p.y - PIPE_GAP) 32

/-- The paint step of `draw_single_pipe` (lines 158-169): the lower body, the upper body
and the two caps at `x`. -/
def paint_cells (p : Pipe) : List Cell :=
  put_rect (double_to_int p.x) p.y 1 (FLOOR_Y - p.y) 124 ++
  put_rect (double_to_int (p.x + 1)) p.y (PIPE_WIDTH - 2) (FLOOR_Y - p.y) 35 ++
  put_rect (double_to_int (p.x + (PIPE_WIDTH : ℚ) - 1)) p.y 1 (FLOOR_Y - p.y) 124 ++
  put_rect (double_to_int p.x) 1 1 (p.y - PIPE_GAP - 1) 124 ++
  put_rect (double_to_int (p.x + 1)) 1 (PIPE_WIDTH - 2) (p.y - PIPE_GAP - 1) 35 ++
  put_rect (double_to_int (p.x + (PIPE_WIDTH : ℚ) - 1)) 1 1 (p.y - PIPE_GAP - 1) 124 ++
  put_rect (double_to_int p.x) p.y PIPE_WIDTH 1 61 ++
  put_rect (double_to_int p.x) (p.y - PIPE_GAP) PIPE_WIDTH 1 61

/-- The C function `draw_single_pipe`: the cells written, in order (colours left out). -/
def draw_single_pipe (p : Pipe) : List Cell :=
  erase_cells p ++ paint_cells p

/-! ## One frame of `main` -/

/-- The per-frame inputs of the loop in `main`: the elapsed time, the jump flag read
from the keyboard and the `rand()` oracle for this frame. -/
structure FrameInput where
  dt : ℚ
  should_jump : Int
  r : Nat → Nat

/-- The update part of one iteration of the loop in `main` (lines 258-261), for an
iteration that does not restart. -/
def frame (st : State) (inp : FrameInput) : State :=
  let pipes1 := update_pipes st.pipes st.pipe_speed inp.dt inp.r
  let player1 := update_player st.player inp.dt inp.should_jump
  let c := collide_player_with_pipes player1 pipes1 st.score
  { player := c.1, pipes := c.2.1, score := c.2.2,
    pipe_speed := update_pipe_speed st.pipe_speed inp.dt }

/-! ## Vocabulary for the statements about collisions -/

/-- Slot `j` of the pool holds a pipe whose `[x, x + PIPE_WIDTH)` contains the player's x. -/
def straddles_at (player : Player) (pipes : List Pipe) (j : Nat) : Bool :=
  match pipes[j]? with
  | none => false
  | some q => decide (straddles player q)

/-- Slot `k` is the first slot in pool order that straddles the player's x. -/
def FirstStraddler (player : Player) (pipes : List Pipe) (k : Nat) : Prop :=
  k < PIPE_COUNT ∧ straddles_at player pipes k = true ∧
    ∀ j, j < k → straddles_at player pipes j = false

instance (player : Player) (pipes : List Pipe) (k : Nat) :
    Decidable (FirstStraddler player pipes k) := by
  unfold FirstStraddler; infer_instance

/-- The player's y is strictly inside the gap of `pipe`: neither test of line 182 holds. -/
def in_gap (player : Player) (pipe : Pipe) : Prop :=
  ((pipe.y - PIPE_GAP + 1 : Int) : ℚ) < player.y ∧ player.y < (pipe.y : ℚ)

instance (player : Player) (pipe : Pipe) : Decidable (in_gap player pipe) := by
  unfold in_gap; infer_instance

/-! ## Vocabulary for the statements about the obstacle pool -/

/-- The pool after the first `n` iterations of the outer loop of `update_pipes`. -/
def update_pipes_upto (d : ℚ) (r : Nat → Nat) (pipes : List Pipe) (n : Nat) : List Pipe :=
  (List.range n).foldl (update_pipe_at d r) pipes

/-- The arguments of one `update_pipes` call: speed, dt and the `rand()` oracle. -/
structure PipesInput where
  pipe_speed : ℚ
  dt : ℚ
  r : Nat → Nat

/-- The pool after a sequence of `update_pipes` calls, in order. -/
def run_update_pipes (inputs : List PipesInput) (pipes : List Pipe) : List Pipe :=
  inputs.foldl (fun ps inp => update_pipes ps inp.pipe_speed inp.dt inp.r) pipes

/-- An obstacle is active when `x ≥ -PIPE_WIDTH`. -/
def active (p : Pipe) : Prop := p.x ≥ -(PIPE_WIDTH : ℚ)

instance (p : Pipe) : Decidable (active p) := by
  unfold active; infer_instance

/-- The constant `GAP_HALF` of the specification, half the gap height `PIPE_GAP`
(`PIPE_GAP / 2 = 4`); the source has no such macro. -/
def GAP_HALF : Int := PIPE_GAP / 2

/-- Every slot of the pool that is active has its gap centre in
`[PIPE_GAP + 1, FLOOR_Y - 1]`. -/
def GapOK (pipes : List Pipe) : Prop :=
  ∀ i p, i < PIPE_COUNT → pipes[i]? = some p → active p →
    PIPE_GAP + 1 ≤ p.y ∧ p.y ≤ FLOOR_Y - 1

/-- Every slot of the pool has its gap centre in `[PIPE_GAP + 1, FLOOR_Y - 1]`. -/
def AllGapOK (pipes : List Pipe) : Prop :=
  ∀ i p, i < PIPE_COUNT → pipes[i]? = some p →
    PIPE_GAP + 1 ≤ p.y ∧ p.y ≤ FLOOR_Y - 1

/-- In this frame `update_pipes` recycles slot `i`: its x after moving is left of
`-PIPE_WIDTH`. -/
def recycled_in (i : Nat) (st : State) (inp : FrameInput) : Prop :=
  match st.pipes[i]? with
  | none => False
  | some p => p.x - st.pipe_speed * inp.dt < -(PIPE_WIDTH : ℚ)

instance (i : Nat) (st : State) (inp : FrameInput) : Decidable (recycled_in i st inp) := by
  unfold recycled_in
  split <;> infer_instance

/-- Slot `i` is recycled in none of the frames of the sequence started in `st`. -/
def never_recycled (i : Nat) : State → List FrameInput → Prop
  | _, [] => True
  | st, inp :: rest => ¬ recycled_in i st inp ∧ never_recycled i (frame st inp) rest

/-- In this frame the score is incremented for slot `i`: it is the first slot that
straddles the player when the collision step runs, and the score goes up by 1. -/
def credited (i : Nat) (st : State) (inp : FrameInput) : Prop :=
  FirstStraddler (update_player st.player inp.dt inp.should_jump)
      (update_pipes st.pipes st.pipe_speed inp.dt inp.r) i ∧
    (frame st inp).score = st.score + 1

instance (i : Nat) (st : State) (inp : FrameInput) : Decidable (credited i st inp) := by
  unfold credited; infer_instance

/-- The number of frames of the sequence started in `st` in which the score is
incremented for slot `i`. -/
def count_credits (i : Nat) : State → List FrameInput → Nat
  | _, [] => 0
  | st, inp :: rest => (if credited i st inp then 1 else 0) + count_credits i (frame st inp) rest

/-! ## Sequences of calls -/

/-- A call that can modify the player: `update_player` with its arguments, or
`collide_player_with_pipes` against some pool and score. -/
inductive PlayerCall where
  | update (dt : ℚ) (should_jump : Int)
  | collide (pipes : List Pipe) (score : Int)

/-- The player after one call. -/
def PlayerCall.run (c : PlayerCall) (p : Player) : Player :=
  match c with
  | .update dt should_jump => update_player p dt should_jump
  | .collide pipes score => (collide_player_with_pipes p pipes score).1

/-- The player after a sequence of calls, in order. -/
def run_player_calls (calls : List PlayerCall) (p : Player) : Player :=
  calls.foldl (fun q c => c.run q) p

/-- The state after a sequence of frames of `main` without restart, in order. -/
def run_frames (inputs : List FrameInput) (st : State) : State :=
  inputs.foldl frame st

/-- The floor part of the actor invariant, and that `dead` is a 0/1 flag. -/
def ActorOK (p : Player) : Prop :=
  p.y ≤ (FLOOR_Y : ℚ) ∧ (p.y = (FLOOR_Y : ℚ) → p.dead = 1 ∧ p.vy = 0) ∧
    (p.dead = 0 ∨ p.dead = 1)

/-- The pool as the inner scan of `update_pipes` sees it when slot `i` (holding `p` before
the call) is tested for recycling: slots below `i` are done, slot `i` has moved,
the slots above `i` have not moved yet. -/
def pool_at_scan (d : ℚ) (r : Nat → Nat) (pipes : List Pipe) (i : Nat) (p : Pipe) : List Pipe :=
  (update_pipes_upto d r pipes i).set i { p with lx := p.x, x := p.x - d }

/-- The x-positions of the pool in increasing order. -/
def sorted_xs (pipes : List Pipe) : List ℚ :=
  (pipes.map Pipe.x).insertionSort (fun a b => a ≤ b)

/-- Adjacent x-positions of the sorted pool differ by exactly `PIPE_WIDTH + PIPE_SPACING`. -/
def exactly_spaced (pipes : List Pipe) : Prop :=
  List.Chain' (fun a b => b - a = ((PIPE_WIDTH + PIPE_SPACING : Int) : ℚ)) (sorted_xs pipes)

/-- Some cell of the list lies at the given row and column. -/
def painted_at (cells : List Cell) (row col : Int) : Prop :=
  ∃ c ∈ cells, c.row = row ∧ c.col = col

/-! ## Basic facts about `update_player` and the collision loop -/

theorem update_player_dead_cases (p : Player) (dt : ℚ) (should_jump : Int) :
    (update_player p dt should_jump).dead = p.dead ∨
      (update_player p dt should_jump).dead = 1 := by
  unfold update_player
  dsimp only
  split
  · right; rfl
  · left; rfl

theorem collide_at_player (player : Player) (pipes : List Pipe) (score : Int)
    (i : Nat) (pipe : Pipe) :
    (collide_at player pipes score i pipe).1 = player ∨
      (collide_at player pipes score i pipe).1 = { player with dead := 1 } := by
  unfold collide_at
  split
  · right; rfl
  · split
    · left; rfl
    · left; rfl

theorem collide_from_player (player : Player) (pipes : List Pipe) (score : Int)
    (n i : Nat) :
    (collide_from player pipes score n i).1 = player ∨
      (collide_from player pipes score n i).1 = { player with dead := 1 } := by
  induction n generalizing i with
  | zero => left; rfl
  | succ n ih =>
    unfold collide_from
    split
    · exact ih (i + 1)
    · split
      · exact collide_at_player player pipes score i _
      · exact ih (i + 1)

theorem PlayerCall.run_dead_cases (c : PlayerCall) (p : Player) :
    (c.run p).dead = p.dead ∨ (c.run p).dead = 1 := by
  cases c with
  | update dt should_jump => exact update_player_dead_cases p dt should_jump
  | collide pipes score =>
    show (collide_from p pipes score PIPE_COUNT 0).1.dead = p.dead ∨
      (collide_from p pipes score PIPE_COUNT 0).1.dead = 1
    rcases collide_from_player p pipes score PIPE_COUNT 0 with h | h
    · left; rw [h]
    · right; rw [h]

theorem run_player_calls_dead (calls : List PlayerCall) (p : Player) :
    (p.dead ≠ 0 → (run_player_calls calls p).dead ≠ 0) ∧
      (p.dead = 1 → (run_player_calls calls p).dead = 1) := by
  induction calls generalizing p with
  | nil => exact ⟨fun h => h, fun h => h⟩
  | cons c cs ih =>
    have hc := PlayerCall.run_dead_cases c p
    have ih1 := ih (c.run p)
    unfold run_player_calls at ih1 ⊢
    rw [List.foldl_cons]
    constructor
    · intro h
      apply ih1.1
      rcases hc with hc | hc
      · rw [hc]; exact h
      · rw [hc]; decide
    · intro h
      apply ih1.2
      rcases hc with hc | hc
      · rw [hc]; exact h
      · exact hc

/-! ## C1: floor clamp -/

/-- C1: after `update_player` the player's y is at most `FLOOR_Y`; when the
integrated y reaches `FLOOR_Y` the result has `dead = 1`, `y = FLOOR_Y` and
`vy = 0`; and a set `dead` flag survives every sequence of `update_player` and
`collide_player_with_pipes` calls, while `init_state` clears it. -/
theorem C1_floor_clamp (p : Player) (dt : ℚ) (should_jump : Int) :
    (update_player p dt should_jump).y ≤ (FLOOR_Y : ℚ) ∧
    (integrated_y p dt should_jump ≥ (FLOOR_Y : ℚ) →
      (update_player p dt should_jump).dead = 1 ∧
      (update_player p dt should_jump).y = (FLOOR_Y : ℚ) ∧
      (update_player p dt should_jump).vy = 0) ∧
    (∀ calls : List PlayerCall, p.dead ≠ 0 → (run_player_calls calls p).dead ≠ 0) ∧
    (∀ calls : List PlayerCall, p.dead = 1 → (run_player_calls calls p).dead = 1) ∧
    (∀ st : State, (init_state st).player.dead = 0) := by
  refine ⟨?_, ?_, fun calls => (run_player_calls_dead calls p).1,
    fun calls => (run_player_calls_dead calls p).2, fun _ => rfl⟩
  · unfold update_player
    dsimp only
    split
    · exact le_refl _
    · rename_i h
      exact le_of_lt (not_le.mp h)
  · intro h
    unfold integrated_y at h
    unfold update_player
    dsimp only
    rw [if_pos h]
    exact ⟨rfl, rfl, rfl⟩

/-- C1 at a concrete input: a player at y = 39 falling with vy = 20 for
dt = 1/10 reaches the floor, and stays dead through a jump and a collision. -/
theorem C1_floor_clamp_witness :
    (update_player { x := 10, y := 39, ly := 39, vy := 20, dead := 0 } (1 / 10) 0).y
        ≤ (FLOOR_Y : ℚ) ∧
    (update_player { x := 10, y := 39, ly := 39, vy := 20, dead := 0 } (1 / 10) 0).dead = 1 ∧
    (run_player_calls [.update (1 / 10) 1, .collide [] 0]
        { x := 10, y := 40, ly := 39, vy := 0, dead := 1 }).dead = 1 := by
  have h := C1_floor_clamp { x := 10, y := 39, ly := 39, vy := 20, dead := 0 } (1 / 10) 0
  have h2 := C1_floor_clamp { x := 10, y := 40, ly := 39, vy := 0, dead := 1 } (1 / 10) 0
  refine ⟨h.1, (h.2.1 ?_).1, h2.2.2.2.1 _ rfl⟩
  simp only [integrated_y, integrated_vy, FLOOR_Y, GRAVITY, JUMP_VEL]
  norm_num

/-! ## C9: speed update and cap -/

/-- C9: `update_pipe_speed` yields `min (speed + PIPE_ACCELERATION * dt) PIPE_MAX_SPEED`,
never exceeds 35, does not decrease a speed at most 35 when `dt ≥ 0`, and maps
speed 15 with dt 2 to 16. -/
theorem C9_speed_update (speed dt : ℚ) :
    update_pipe_speed speed dt
        = min (speed + PIPE_ACCELERATION * dt) (PIPE_MAX_SPEED : ℚ) ∧
    update_pipe_speed speed dt ≤ 35 ∧
    (0 ≤ dt → speed ≤ (PIPE_MAX_SPEED : ℚ) → speed ≤ update_pipe_speed speed dt) ∧
    update_pipe_speed 15 2 = 16 := by
  unfold update_pipe_speed PIPE_ACCELERATION PIPE_MAX_SPEED
  dsimp only
  refine ⟨?_, ?_, ?_, ?_⟩
  · split
    · rename_i h
      rw [min_eq_right]
      have : speed + 1 / 2 * dt = speed + dt * (1 / 2) := by ring
      rw [this]
      exact le_of_lt h
    · rename_i h
      rw [min_eq_left]
      · ring
      · have : speed + 1 / 2 * dt = speed + dt * (1 / 2) := by ring
        rw [this]
        exact not_lt.mp h
  · split
    · norm_num
    · rename_i h
      have := not_lt.mp h
      norm_num at this ⊢
      exact this
  · intro hdt hs
    split
    · exact hs
    · have : 0 ≤ dt * (1 / 2) := by positivity
      linarith
  · norm_num

/-- C9 at a concrete input: speed 34, dt 1 stays below the cap and does not decrease. -/
theorem C9_speed_update_witness :
    (34 : ℚ) ≤ update_pipe_speed 34 1 ∧ update_pipe_speed 34 1 ≤ 35 :=
  ⟨(C9_speed_update 34 1).2.2.1 (by norm_num) (by norm_num [PIPE_MAX_SPEED]),
    (C9_speed_update 34 1).2.1⟩

/-! ## C8: the integration step of `update_player` -/

/-- C8 as stated fails at the floor: an alive player at y = 39.9 with vy = 10,
no jump, dt = 0.1 ends with vy = 0 (floor clamp), not vy + GRAVITY * dt = 15,
and its y is 40 although old y + new vy * dt = 39.9 is below `FLOOR_Y`. -/
theorem C8_counterexample :
    (0 : ℚ) ≤ 1 / 10 ∧
    (update_player { x := 10, y := 399 / 10, ly := 39, vy := 10, dead := 0 } (1 / 10) 0).vy
      ≠ 10 + (GRAVITY : ℚ) * (1 / 10) ∧
    (399 / 10 : ℚ)
      + (update_player { x := 10, y := 399 / 10, ly := 39, vy := 10, dead := 0 } (1 / 10) 0).vy
        * (1 / 10) < (FLOOR_Y : ℚ) ∧
    (update_player { x := 10, y := 399 / 10, ly := 39, vy := 10, dead := 0 } (1 / 10) 0).y
      ≠ (399 / 10 : ℚ)
        + (update_player { x := 10, y := 399 / 10, ly := 39, vy := 10, dead := 0 } (1 / 10) 0).vy
          * (1 / 10) := by
  simp only [update_player, integrated_vy, FLOOR_Y, GRAVITY, JUMP_VEL]
  norm_num

/-- C8 (amended): for `dt ≥ 0`, `update_player` sets `ly` to the old y; whenever the
integrated y is below `FLOOR_Y`, the new vy is `-JUMP_VEL` for an alive player
with a jump requested and `vy + GRAVITY * dt` otherwise, and the new y is old
y + new vy * dt; an alive jumping player that starts above the floor always is
in that case; when the integrated y reaches `FLOOR_Y` the floor clamp applies
instead (vy = 0, y = `FLOOR_Y`). The scenario y = 20, vy = 0, dt = 0.1 gives
vy = 5, y = 20.5 without jump and vy = -20, y = 18 with jump. -/
theorem C8_integration_step (p : Player) (dt : ℚ) (should_jump : Int) (hdt : 0 ≤ dt) :
    (update_player p dt should_jump).ly = p.y ∧
    (integrated_y p dt should_jump < (FLOOR_Y : ℚ) →
      ((p.dead = 0 ∧ should_jump ≠ 0) →
        (update_player p dt should_jump).vy = -(JUMP_VEL : ℚ)) ∧
      (¬ (p.dead = 0 ∧ should_jump ≠ 0) →
        (update_player p dt should_jump).vy = p.vy + (GRAVITY : ℚ) * dt) ∧
      (update_player p dt should_jump).y
        = p.y + (update_player p dt should_jump).vy * dt ∧
      (update_player p dt should_jump).dead = p.dead) ∧
    ((p.dead = 0 ∧ should_jump ≠ 0) → p.y < (FLOOR_Y : ℚ) →
      (update_player p dt should_jump).vy = -(JUMP_VEL : ℚ) ∧
      (update_player p dt should_jump).y = p.y + -(JUMP_VEL : ℚ) * dt) ∧
    (∀ x ly : ℚ,
      update_player { x := x, y := 20, ly := ly, vy := 0, dead := 0 } (1 / 10) 0
        = { x := x, y := 41 / 2, ly := 20, vy := 5, dead := 0 } ∧
      update_player { x := x, y := 20, ly := ly, vy := 0, dead := 0 } (1 / 10) 1
        = { x := x, y := 18, ly := 20, vy := -20, dead := 0 }) ∧
    (integrated_y p dt should_jump ≥ (FLOOR_Y : ℚ) →
      (update_player p dt should_jump).vy = 0 ∧
      (update_player p dt should_jump).y = (FLOOR_Y : ℚ) ∧
      (update_player p dt should_jump).dead = 1) := by
  have key : integrated_y p dt should_jump < (FLOOR_Y : ℚ) →
      update_player p dt should_jump
        = { p with ly := p.y, vy := integrated_vy p dt should_jump,
                   y := p.y + integrated_vy p dt should_jump * dt } := by
    intro h
    unfold integrated_y at h
    unfold update_player
    dsimp only
    rw [if_neg (not_le.mpr h)]
  refine ⟨?_, ?_, ?_, ?_, ?_⟩
  · unfold update_player
    dsimp only
    split <;> rfl
  · intro h
    rw [key h]
    refine ⟨?_, ?_, rfl, rfl⟩
    · intro hj
      simp only [integrated_vy, if_pos hj]
    · intro hj
      simp only [integrated_vy, if_neg hj]
  · intro hj hy
    have hvy : integrated_vy p dt should_jump = -(JUMP_VEL : ℚ) := by
      simp only [integrated_vy, if_pos hj]
    have h : integrated_y p dt should_jump < (FLOOR_Y : ℚ) := by
      unfold integrated_y
      rw [hvy]
      have : (0 : ℚ) ≤ (JUMP_VEL : ℚ) * dt := by
        apply mul_nonneg _ hdt
        norm_num [JUMP_VEL]
      linarith
    rw [key h]
    simp only [hvy]
    exact ⟨trivial, trivial⟩
  · intro x ly
    simp only [update_player, integrated_vy, FLOOR_Y, GRAVITY, JUMP_VEL]
    norm_num
  · intro h
    unfold integrated_y at h
    unfold update_player
    dsimp only
    rw [if_pos h]
    exact ⟨rfl, rfl, rfl⟩

/-- C8 (amended) at the scenario input y = 20, vy = 0, dt = 0.1 with a jump. -/
theorem C8_integration_step_witness :
    (0 : ℚ) ≤ 1 / 10 ∧
    (update_player { x := 10, y := 20, ly := 20, vy := 0, dead := 0 } (1 / 10) 1).vy
      = -(JUMP_VEL : ℚ) ∧
    (update_player { x := 10, y := 20, ly := 20, vy := 0, dead := 0 } (1 / 10) 1).y
      = 20 + -(JUMP_VEL : ℚ) * (1 / 10) :=
  ⟨by norm_num,
    (C8_integration_step { x := 10, y := 20, ly := 20, vy := 0, dead := 0 } (1 / 10) 1
      (by norm_num)).2.2.1 ⟨rfl, by decide⟩ (by norm_num [FLOOR_Y])⟩

/-! ## `put_rect`: the cells written -/

theorem mem_put_rect {x y w h fill : Int} {c : Cell} (hc : c ∈ put_rect x y w h fill) :
    x ≤ WIDTH ∧ 0 < clipped_w x w ∧ 0 ≤ y ∧
      clipped_x x ≤ c.col ∧ c.col < clipped_x x + clipped_w x w ∧
      y ≤ c.row ∧ c.row < y + h ∧ c.ch = fill := by
  unfold put_rect at hc
  dsimp only at hc
  split at hc
  · simp at hc
  · rename_i hx
    split at hc
    · simp at hc
    · rename_i hw
      rw [List.mem_flatMap] at hc
      obtain ⟨di, hdi, hmem⟩ := hc
      split at hmem
      · simp at hmem
      · rename_i hy
        rw [List.mem_map] at hmem
        obtain ⟨j, hj, rfl⟩ := hmem
        rw [List.mem_range] at hdi hj
        dsimp only
        refine ⟨by omega, by omega, by omega, by omega, by omega, by omega, by omega, rfl⟩

/-! ## C6: `put_rect` stays inside the horizontal bounds -/

/-- C6: every cell written by `put_rect` has its column in `[1, WIDTH]`; nothing is
written when `x > WIDTH` or when the clipped width is `≤ 0`. -/
theorem C6_put_rect_in_bounds (x y w h fill : Int) :
    (∀ c ∈ put_rect x y w h fill, 1 ≤ c.col ∧ c.col ≤ WIDTH) ∧
    (x > WIDTH → put_rect x y w h fill = []) ∧
    (clipped_w x w ≤ 0 → put_rect x y w h fill = []) := by
  refine ⟨?_, ?_, ?_⟩
  · intro c hc
    obtain ⟨hx, hw, _, h1, h2, _⟩ := mem_put_rect hc
    unfold clipped_x at h1 h2
    unfold clipped_w at hw h2
    unfold WIDTH at *
    dsimp only at hw h2
    split_ifs at h1 h2 hw <;> omega
  · intro hx
    unfold put_rect
    rw [if_pos hx]
  · intro hw
    unfold put_rect
    dsimp only
    rw [if_pos hw]
    split <;> rfl

/-- C6 at concrete inputs: a rectangle overhanging the left edge stays in bounds, and
calls with `x > WIDTH` or with non-positive clipped width write nothing. -/
theorem C6_put_rect_in_bounds_witness :
    (∀ c ∈ put_rect (-2) 3 70 2 35, 1 ≤ c.col ∧ c.col ≤ WIDTH) ∧
    put_rect 65 3 4 2 35 = [] ∧
    put_rect (-7) 3 5 2 35 = [] :=
  ⟨(C6_put_rect_in_bounds (-2) 3 70 2 35).1,
    (C6_put_rect_in_bounds 65 3 4 2 35).2.1 (by decide),
    (C6_put_rect_in_bounds (-7) 3 5 2 35).2.2 (by decide)⟩

/-! ## C5: right-edge truncation -/

/-- C5 evaluated on the code: `put_rect` with x = 1 and w = `WIDTH + 10` writes the 63
columns 1..63 of the row, not the 64 columns 1..`WIDTH`; the untruncated call with
w = `WIDTH` does write column `WIDTH`, and a width-5 rectangle at x = `WIDTH`
writes nothing. -/
theorem C5_put_rect_right_edge_short :
    (put_rect 1 41 (WIDTH + 10) 1 61).map Cell.col = (List.range 63).map (fun j => (1 : Int) + j) ∧
    (put_rect 1 41 (WIDTH + 10) 1 61).length = 63 ∧
    (∀ c ∈ put_rect 1 41 (WIDTH + 10) 1 61, c.col ≠ WIDTH) ∧
    (put_rect 1 41 WIDTH 1 61).length = 64 ∧
    put_rect WIDTH 24 PIPE_WIDTH 1 61 = [] := by
  refine ⟨by decide, by decide, ?_, by decide, by decide⟩
  intro c hc
  obtain ⟨_, _, _, _, h2, _⟩ := mem_put_rect hc
  have : clipped_x 1 + clipped_w 1 (WIDTH + 10) = 64 := by decide
  rw [this] at h2
  unfold WIDTH
  omega

/-! ## The collision loop, case by case -/

theorem in_gap_iff_not_hits_body (player : Player) (pipe : Pipe) :
    in_gap player pipe ↔ ¬ hits_body player pipe := by
  unfold in_gap hits_body
  constructor
  · rintro ⟨h1, h2⟩ h
    rcases h with h | h
    · exact absurd h2 (not_lt.mpr h)
    · exact absurd h1 (not_lt.mpr h)
  · intro h
    rw [not_or] at h
    exact ⟨not_le.mp h.2, not_le.mp h.1⟩

theorem straddles_at_some {player : Player} {pipes : List Pipe} {j : Nat} {q : Pipe}
    (h : pipes[j]? = some q) : straddles_at player pipes j = decide (straddles player q) := by
  unfold straddles_at
  rw [h]

theorem straddles_at_true {player : Player} {pipes : List Pipe} {j : Nat}
    (h : straddles_at player pipes j = true) :
    ∃ q, pipes[j]? = some q ∧ straddles player q := by
  unfold straddles_at at h
  split at h
  · exact absurd h (by decide)
  · rename_i q hq
    exact ⟨q, hq, of_decide_eq_true h⟩

/-- Either no scanned slot straddles the player and nothing changes, or the loop
ends in the straddle branch of the first straddling slot. -/
theorem collide_from_cases (player : Player) (pipes : List Pipe) (score : Int)
    (n i : Nat) :
    ((∀ j, i ≤ j → j < i + n → straddles_at player pipes j = false) ∧
        collide_from player pipes score n i = (player, pipes, score)) ∨
    (∃ k pipe, i ≤ k ∧ k < i + n ∧ pipes[k]? = some pipe ∧ straddles player pipe ∧
        (∀ j, i ≤ j → j < k → straddles_at player pipes j = false) ∧
        collide_from player pipes score n i = collide_at player pipes score k pipe) := by
  induction n generalizing i with
  | zero =>
    left
    exact ⟨fun j h1 h2 => absurd h2 (by omega), rfl⟩
  | succ n ih =>
    have step : straddles_at player pipes i = false →
        collide_from player pipes score (n + 1) i = collide_from player pipes score n (i + 1) →
        ((∀ j, i ≤ j → j < i + (n + 1) → straddles_at player pipes j = false) ∧
          collide_from player pipes score (n + 1) i = (player, pipes, score)) ∨
        (∃ k pipe, i ≤ k ∧ k < i + (n + 1) ∧ pipes[k]? = some pipe ∧ straddles player pipe ∧
          (∀ j, i ≤ j → j < k → straddles_at player pipes j = false) ∧
          collide_from player pipes score (n + 1) i = collide_at player pipes score k pipe) := by
      intro hi heq
      rcases ih (i + 1) with ⟨hno, hres⟩ | ⟨k, pipe, hk1, hk2, hk, hs, hfirst, hres⟩
      · left
        refine ⟨?_, by rw [heq, hres]⟩
        intro j h1 h2
        by_cases hj : j = i
        · rw [hj]; exact hi
        · exact hno j (by omega) (by omega)
      · right
        refine ⟨k, pipe, by omega, by omega, hk, hs, ?_, by rw [heq, hres]⟩
        intro j h1 h2
        by_cases hj : j = i
        · rw [hj]; exact hi
        · exact hfirst j (by omega) h2
    cases hp : pipes[i]? with
    | none =>
      apply step
      · unfold straddles_at; rw [hp]
      · rw [collide_from, hp]
    | some pipe =>
      by_cases hs : straddles player pipe
      · right
        refine ⟨i, pipe, le_refl i, by omega, hp, hs, fun j h1 h2 => absurd h2 (by omega), ?_⟩
        rw [collide_from, hp]
        dsimp only
        rw [if_pos hs]
      · apply step
        · rw [straddles_at_some hp]; exact decide_eq_false hs
        · rw [collide_from, hp]
          dsimp only
          rw [if_neg hs]

/-- The cases of `collide_player_with_pipes`. -/
theorem collide_cases (player : Player) (pipes : List Pipe) (score : Int) :
    ((∀ j, j < PIPE_COUNT → straddles_at player pipes j = false) ∧
        collide_player_with_pipes player pipes score = (player, pipes, score)) ∨
    (∃ k pipe, FirstStraddler player pipes k ∧ pipes[k]? = some pipe ∧
        straddles player pipe ∧
        collide_player_with_pipes player pipes score = collide_at player pipes score k pipe) := by
  unfold collide_player_with_pipes
  rcases collide_from_cases player pipes score PIPE_COUNT 0 with
    ⟨hno, hres⟩ | ⟨k, pipe, _, hk2, hk, hs, hfirst, hres⟩
  · left
    exact ⟨fun j hj => hno j (Nat.zero_le j) (by omega), hres⟩
  · right
    refine ⟨k, pipe, ⟨by omega, ?_, fun j hj => hfirst j (Nat.zero_le j) hj⟩, hk, hs, hres⟩
    rw [straddles_at_some hk]
    exact decide_eq_true hs

theorem FirstStraddler.unique {player : Player} {pipes : List Pipe} {k k2 : Nat}
    (h : FirstStraddler player pipes k) (h2 : FirstStraddler player pipes k2) : k = k2 := by
  rcases Nat.lt_trichotomy k k2 with hlt | heq | hgt
  · have := h2.2.2 k hlt
    rw [h.2.1] at this
    exact absurd this (by decide)
  · exact heq
  · have := h.2.2 k2 hgt
    rw [h2.2.1] at this
    exact absurd this (by decide)

theorem map_set_same_key {β : Type} (f : Pipe → β) (pipes : List Pipe) (k : Nat)
    (pipe pipe2 : Pipe) (hk : pipes[k]? = some pipe) (hf : f pipe2 = f pipe) :
    (pipes.set k pipe2).map f = pipes.map f := by
  apply List.ext_getElem?
  intro j
  rw [List.getElem?_map, List.getElem?_map, List.getElem?_set]
  by_cases hj : k = j
  · subst hj
    rw [if_pos rfl, hk]
    have hlt : k < pipes.length := (List.getElem?_eq_some.mp hk).1
    rw [if_pos hlt]
    simp only [Option.map_some']
    rw [hf]
  · rw [if_neg hj]

theorem collide_at_frame (player : Player) (pipes : List Pipe) (score : Int)
    (k : Nat) (pipe : Pipe) (hk : pipes[k]? = some pipe) :
    (collide_at player pipes score k pipe).2.1.map (fun q => (q.x, q.lx, q.y))
      = pipes.map (fun q => (q.x, q.lx, q.y)) := by
  unfold collide_at
  split
  · rfl
  · split
    · exact map_set_same_key _ pipes k pipe _ hk rfl
    · rfl

/-! ## C10: the collision rule -/

/-- C10: `collide_player_with_pipes` sets `dead = 1` exactly when the first slot in pool
order that straddles the player's x exists and the player's y is on its body
(`y ≥ gapCenterY` or `y ≤ gapCenterY - PIPE_GAP + 1`), otherwise `dead` keeps its
value; with no straddling slot nothing changes; the player's x, y, ly, vy and
every obstacle's x, lx and gap centre are always unchanged. -/
theorem C10_collision_rule (player : Player) (pipes : List Pipe) (score : Int) :
    ((∃ k pipe, FirstStraddler player pipes k ∧ pipes[k]? = some pipe ∧
        hits_body player pipe) →
      (collide_player_with_pipes player pipes score).1.dead = 1) ∧
    (¬ (∃ k pipe, FirstStraddler player pipes k ∧ pipes[k]? = some pipe ∧
        hits_body player pipe) →
      (collide_player_with_pipes player pipes score).1.dead = player.dead) ∧
    ((∀ j, j < PIPE_COUNT → straddles_at player pipes j = false) →
      collide_player_with_pipes player pipes score = (player, pipes, score)) ∧
    (collide_player_with_pipes player pipes score).1.x = player.x ∧
    (collide_player_with_pipes player pipes score).1.y = player.y ∧
    (collide_player_with_pipes player pipes score).1.ly = player.ly ∧
    (collide_player_with_pipes player pipes score).1.vy = player.vy ∧
    (collide_player_with_pipes player pipes score).2.1.map (fun q => (q.x, q.lx, q.y))
      = pipes.map (fun q => (q.x, q.lx, q.y)) := by
  have hpl := collide_from_player player pipes score PIPE_COUNT 0
  have hfields : (collide_player_with_pipes player pipes score).1.x = player.x ∧
      (collide_player_with_pipes player pipes score).1.y = player.y ∧
      (collide_player_with_pipes player pipes score).1.ly = player.ly ∧
      (collide_player_with_pipes player pipes score).1.vy = player.vy := by
    unfold collide_player_with_pipes
    rcases hpl with h | h <;> rw [h] <;> exact ⟨rfl, rfl, rfl, rfl⟩
  refine ⟨?_, ?_, ?_, hfields.1, hfields.2.1, hfields.2.2.1, hfields.2.2.2, ?_⟩
  · rintro ⟨k, pipe, hfs, hk, hb⟩
    rcases collide_cases player pipes score with ⟨hno, _⟩ | ⟨k2, pipe2, hfs2, hk2, _, hres⟩
    · have := hno k hfs.1
      rw [hfs.2.1] at this
      exact absurd this (by decide)
    · have hkk := hfs.unique hfs2
      subst hkk
      rw [hk] at hk2
      cases hk2
      rw [hres]
      unfold collide_at
      rw [if_pos hb]
  · intro hnot
    rcases collide_cases player pipes score with ⟨_, hres⟩ | ⟨k2, pipe2, hfs2, hk2, _, hres⟩
    · rw [hres]
    · have hb : ¬ hits_body player pipe2 := fun hb => hnot ⟨k2, pipe2, hfs2, hk2, hb⟩
      rw [hres]
      unfold collide_at
      rw [if_neg hb]
      split <;> rfl
  · intro hno
    rcases collide_cases player pipes score with ⟨_, hres⟩ | ⟨k2, pipe2, hfs2, _, _, _⟩
    · exact hres
    · have := hno k2 hfs2.1
      rw [hfs2.2.1] at this
      exact absurd this (by decide)
  · rcases collide_cases player pipes score with ⟨_, hres⟩ | ⟨k2, pipe2, _, hk2, _, hres⟩
    · rw [hres]
    · rw [hres]
      exact collide_at_frame player pipes score k2 pipe2 hk2

/-- C10 at a concrete input: a player at x = 10, y = 30 meets the body of the pipe at
x = 8 with gap centre 24 and dies; y is left at 30. -/
theorem C10_collision_rule_witness :
    (collide_player_with_pipes { x := 10, y := 30, ly := 29, vy := 3, dead := 0 }
      [{ x := 8, lx := 9, y := 24, scored := 0 }] 0).1.dead = 1 ∧
    (collide_player_with_pipes { x := 10, y := 30, ly := 29, vy := 3, dead := 0 }
      [{ x := 8, lx := 9, y := 24, scored := 0 }] 0).1.y = 30 := by
  refine ⟨(C10_collision_rule { x := 10, y := 30, ly := 29, vy := 3, dead := 0 }
      [{ x := 8, lx := 9, y := 24, scored := 0 }] 0).1
      ⟨0, { x := 8, lx := 9, y := 24, scored := 0 }, ⟨by decide, ?_, ?_⟩, rfl, ?_⟩,
    (C10_collision_rule _ _ _).2.2.2.2.1⟩
  · simp only [straddles_at, straddles, PIPE_WIDTH, List.getElem?_cons_zero]
    norm_num
  · intro j hj
    exact absurd hj (Nat.not_lt_zero j)
  · simp only [hits_body, PIPE_GAP]
    norm_num

/-! ## The outer loop of `update_pipes`, slot by slot -/

theorem update_pipe_at_length (d : ℚ) (r : Nat → Nat) (pipes : List Pipe) (i : Nat) :
    (update_pipe_at d r pipes i).length = pipes.length := by
  unfold update_pipe_at
  split
  · rfl
  · dsimp only
    split <;> simp only [List.length_set]

theorem update_pipe_at_ne (d : ℚ) (r : Nat → Nat) (pipes : List Pipe) {i j : Nat}
    (h : i ≠ j) : (update_pipe_at d r pipes i)[j]? = pipes[j]? := by
  unfold update_pipe_at
  split
  · rfl
  · dsimp only
    split
    · rw [List.getElem?_set_ne h, List.getElem?_set_ne h]
    · rw [List.getElem?_set_ne h]

/-- What iteration `i` writes into slot `i`: the moved pipe, or the recycled one. -/
theorem update_pipe_at_self (d : ℚ) (r : Nat → Nat) (pipes : List Pipe) {i : Nat} {p : Pipe}
    (h : pipes[i]? = some p) :
    (update_pipe_at d r pipes i)[i]? = some
      (if p.x - d < -(PIPE_WIDTH : ℚ) then
        { x := (scan_max (pipes.set i { p with lx := p.x, x := p.x - d })).1
            + ((PIPE_WIDTH + PIPE_SPACING : Int) : ℚ),
          lx := (scan_max (pipes.set i { p with lx := p.x, x := p.x - d })).1
            + ((PIPE_WIDTH + PIPE_SPACING : Int) : ℚ),
          y := recycle_y (scan_max (pipes.set i { p with lx := p.x, x := p.x - d })).2 (r i),
          scored := 0 }
      else { p with lx := p.x, x := p.x - d }) := by
  have hlt : i < pipes.length := (List.getElem?_eq_some.mp h).1
  unfold update_pipe_at
  rw [h]
  dsimp only
  split
  · rw [List.getElem?_set_self (by rw [List.length_set]; exact hlt)]
  · rw [List.getElem?_set_self hlt]

theorem update_pipes_upto_succ (d : ℚ) (r : Nat → Nat) (pipes : List Pipe) (n : Nat) :
    update_pipes_upto d r pipes (n + 1)
      = update_pipe_at d r (update_pipes_upto d r pipes n) n := by
  unfold update_pipes_upto
  rw [List.range_succ, List.foldl_append]
  rfl

theorem update_pipes_eq_upto (pipes : List Pipe) (pipe_speed dt : ℚ) (r : Nat → Nat) :
    update_pipes pipes pipe_speed dt r
      = update_pipes_upto (pipe_speed * dt) r pipes PIPE_COUNT := rfl

theorem update_pipes_upto_length (d : ℚ) (r : Nat → Nat) (pipes : List Pipe) (n : Nat) :
    (update_pipes_upto d r pipes n).length = pipes.length := by
  induction n with
  | zero => rfl
  | succ n ih => rw [update_pipes_upto_succ, update_pipe_at_length, ih]

theorem update_pipes_length (pipes : List Pipe) (pipe_speed dt : ℚ) (r : Nat → Nat) :
    (update_pipes pipes pipe_speed dt r).length = pipes.length :=
  update_pipes_upto_length _ _ _ _

/-- Slots not yet reached by the loop still hold their old value. -/
theorem update_pipes_upto_ge (d : ℚ) (r : Nat → Nat) (pipes : List Pipe) {n j : Nat}
    (h : n ≤ j) : (update_pipes_upto d r pipes n)[j]? = pipes[j]? := by
  induction n with
  | zero => rfl
  | succ n ih =>
    rw [update_pipes_upto_succ, update_pipe_at_ne d r _ (by omega : n ≠ j)]
    exact ih (by omega)

/-- Slots already passed by the loop keep the value written by their own iteration. -/
theorem update_pipes_upto_lt (d : ℚ) (r : Nat → Nat) (pipes : List Pipe) {n j : Nat}
    (h : j < n) :
    (update_pipes_upto d r pipes n)[j]? = (update_pipes_upto d r pipes (j + 1))[j]? := by
  induction n with
  | zero => exact absurd h (Nat.not_lt_zero j)
  | succ n ih =>
    by_cases hj : j = n
    · rw [hj]
    · rw [update_pipes_upto_succ, update_pipe_at_ne d r _ (fun e => hj e.symm)]
      exact ih (by omega)

/-- The accumulator of the inner scan dominates its start value and every slot scanned. -/
theorem scan_fold_ge (pipes : List Pipe) (l : List Nat) (acc : ℚ × Int) :
    acc.1 ≤ (l.foldl
      (fun (acc : ℚ × Int) (j : Nat) =>
        match pipes[j]? with
        | none => acc
        | some q => if q.x > acc.1 then (q.x, q.y) else acc) acc).1 ∧
    ∀ k ∈ l, ∀ q, pipes[k]? = some q → q.x ≤ (l.foldl
      (fun (acc : ℚ × Int) (j : Nat) =>
        match pipes[j]? with
        | none => acc
        | some q => if q.x > acc.1 then (q.x, q.y) else acc) acc).1 := by
  induction l generalizing acc with
  | nil =>
    refine ⟨le_refl _, ?_⟩
    intro k hk
    exact absurd hk (List.not_mem_nil k)
  | cons i l ih =>
    rw [List.foldl_cons]
    generalize hacc : (match pipes[i]? with
        | none => acc
        | some q => if q.x > acc.1 then (q.x, q.y) else acc) = acc2
    have hmono : acc.1 ≤ acc2.1 := by
      rw [← hacc]
      split
      · exact le_refl _
      · split
        · rename_i hgt; exact le_of_lt hgt
        · exact le_refl _
    have hi : ∀ q, pipes[i]? = some q → q.x ≤ acc2.1 := by
      intro q hq
      rw [← hacc, hq]
      dsimp only
      split
      · exact le_refl _
      · rename_i hgt; exact not_lt.mp hgt
    obtain ⟨h1, h2⟩ := ih acc2
    refine ⟨le_trans hmono h1, ?_⟩
    intro k hk q hq
    rcases List.mem_cons.mp hk with rfl | hk
    · exact le_trans (hi q hq) h1
    · exact h2 k hk q hq

theorem scan_max_nonneg (pipes : List Pipe) : 0 ≤ (scan_max pipes).1 :=
  (scan_fold_ge pipes (List.range PIPE_COUNT) (0, 0)).1

theorem scan_max_ge (pipes : List Pipe) {k : Nat} {q : Pipe} (hk : k < PIPE_COUNT)
    (hq : pipes[k]? = some q) : q.x ≤ (scan_max pipes).1 :=
  (scan_fold_ge pipes (List.range PIPE_COUNT) (0, 0)).2 k (List.mem_range.mpr hk) q hq

theorem recycle_y_bounds (ny : Int) (rnd : Nat) :
    PIPE_GAP + 1 ≤ recycle_y ny rnd ∧ recycle_y ny rnd ≤ FLOOR_Y - 1 := by
  unfold recycle_y PIPE_GAP FLOOR_Y PIPE_SPREAD
  dsimp only
  split_ifs <;> omega

/-! ## The spacing invariant -/

/-- Slot `i` after `update_pipes`: the pipe moved by `pipe_speed * dt`, or, when that
leaves it left of `-PIPE_WIDTH`, the recycled pipe computed from the scan of the
pool as it stands in iteration `i`. -/
theorem update_pipes_getElem (pipes : List Pipe) (pipe_speed dt : ℚ) (r : Nat → Nat)
    {i : Nat} {p : Pipe} (hi : i < PIPE_COUNT) (h : pipes[i]? = some p) :
    (update_pipes pipes pipe_speed dt r)[i]? = some
      (if p.x - pipe_speed * dt < -(PIPE_WIDTH : ℚ) then
        { x := (scan_max ((update_pipes_upto (pipe_speed * dt) r pipes i).set i
                  { p with lx := p.x, x := p.x - pipe_speed * dt })).1
            + ((PIPE_WIDTH + PIPE_SPACING : Int) : ℚ),
          lx := (scan_max ((update_pipes_upto (pipe_speed * dt) r pipes i).set i
                  { p with lx := p.x, x := p.x - pipe_speed * dt })).1
            + ((PIPE_WIDTH + PIPE_SPACING : Int) : ℚ),
          y := recycle_y (scan_max ((update_pipes_upto (pipe_speed * dt) r pipes i).set i
                  { p with lx := p.x, x := p.x - pipe_speed * dt })).2 (r i),
          scored := 0 }
      else { p with lx := p.x, x := p.x - pipe_speed * dt }) := by
  rw [update_pipes_eq_upto, update_pipes_upto_lt _ _ _ hi, update_pipes_upto_succ]
  have h0 : (update_pipes_upto (pipe_speed * dt) r pipes i)[i]? = some p := by
    rw [update_pipes_upto_ge _ _ _ (le_refl i)]
    exact h
  exact update_pipe_at_self _ _ _ h0

/-- After `update_pipes` every slot is active and is either the old pipe moved (with
its gap centre) or a recycled pipe with a clamped gap centre. -/
theorem update_pipes_slot (pipes : List Pipe) (pipe_speed dt : ℚ) (r : Nat → Nat)
    {i : Nat} {p2 : Pipe} (hi : i < PIPE_COUNT)
    (h2 : (update_pipes pipes pipe_speed dt r)[i]? = some p2) :
    active p2 ∧ ∃ p, pipes[i]? = some p ∧
      ((p2.x = p.x - pipe_speed * dt ∧ p2.y = p.y) ∨
       (PIPE_GAP + 1 ≤ p2.y ∧ p2.y ≤ FLOOR_Y - 1)) := by
  have hlen : i < pipes.length := by
    have := (List.getElem?_eq_some.mp h2).1
    rwa [update_pipes_length] at this
  have hp : pipes[i]? = some pipes[i] := List.getElem?_eq_getElem hlen
  rw [update_pipes_getElem pipes pipe_speed dt r hi hp] at h2
  by_cases hrec : pipes[i].x - pipe_speed * dt < -(PIPE_WIDTH : ℚ)
  · rw [if_pos hrec] at h2
    cases h2
    refine ⟨?_, pipes[i], hp, Or.inr (recycle_y_bounds _ _)⟩
    unfold active
    dsimp only
    have := scan_max_nonneg ((update_pipes_upto (pipe_speed * dt) r pipes i).set i
      { pipes[i] with lx := pipes[i].x, x := pipes[i].x - pipe_speed * dt })
    norm_num [PIPE_WIDTH, PIPE_SPACING]
    linarith
  · rw [if_neg hrec] at h2
    cases h2
    refine ⟨?_, pipes[i], hp, Or.inl ⟨rfl, rfl⟩⟩
    unfold active
    exact not_lt.mp hrec

theorem update_pipes_allGapOK (pipes : List Pipe) (pipe_speed dt : ℚ) (r : Nat → Nat)
    (hd : 0 ≤ pipe_speed * dt) (h : GapOK pipes) :
    AllGapOK (update_pipes pipes pipe_speed dt r) := by
  intro i p2 hi h2
  obtain ⟨hact, p, hp, hcase⟩ := update_pipes_slot pipes pipe_speed dt r hi h2
  rcases hcase with ⟨hx, hy⟩ | hb
  · rw [hy]
    apply h i p hi hp
    unfold active at hact ⊢
    rw [hx] at hact
    linarith
  · exact hb

theorem AllGapOK.gapOK {pipes : List Pipe} (h : AllGapOK pipes) : GapOK pipes :=
  fun i p hi hp _ => h i p hi hp

theorem run_update_pipes_cons (inp : PipesInput) (inputs : List PipesInput)
    (pipes : List Pipe) :
    run_update_pipes (inp :: inputs) pipes
      = run_update_pipes inputs (update_pipes pipes inp.pipe_speed inp.dt inp.r) := by
  unfold run_update_pipes
  rw [List.foldl_cons]

theorem run_update_pipes_length (inputs : List PipesInput) (pipes : List Pipe) :
    (run_update_pipes inputs pipes).length = pipes.length := by
  induction inputs generalizing pipes with
  | nil => rfl
  | cons inp inputs ih => rw [run_update_pipes_cons, ih, update_pipes_length]

theorem run_update_pipes_allGapOK (inputs : List PipesInput) (pipes : List Pipe)
    (hin : ∀ inp ∈ inputs, 0 ≤ inp.dt ∧ 0 ≤ inp.pipe_speed) (h : AllGapOK pipes) :
    AllGapOK (run_update_pipes inputs pipes) := by
  induction inputs generalizing pipes with
  | nil => exact h
  | cons inp inputs ih =>
    rw [run_update_pipes_cons]
    have h0 := hin inp (List.mem_cons_self _ _)
    exact ih _ (fun i hi => hin i (List.mem_cons_of_mem _ hi))
      (update_pipes_allGapOK pipes _ _ _ (mul_nonneg h0.2 h0.1) h.gapOK)

/-! ## The initial pool -/

theorem init_state_pipes (st : State) :
    (init_state st).pipes =
      [{ x := 64, lx := 0, y := 24, scored := 0 }, { x := -6, lx := 0, y := 0, scored := 0 },
       { x := -6, lx := 0, y := 0, scored := 0 }, { x := -6, lx := 0, y := 0, scored := 0 },
       { x := -6, lx := 0, y := 0, scored := 0 }, { x := -6, lx := 0, y := 0, scored := 0 },
       { x := -6, lx := 0, y := 0, scored := 0 }, { x := -6, lx := 0, y := 0, scored := 0 }] := by
  simp [init_state, zero_state, init_pipes_loop, set_pipe_x, set_pipe_y, PIPE_COUNT,
    List.range, List.range.loop, List.replicate, PIPE_WIDTH, WIDTH, FLOOR_Y, PIPE_GAP]
  constructor
  · decide
  · norm_num

/-- In the initial pool slot 0 is the pipe at x = 64 with gap centre 24, and every
other slot is at x = -6. -/
theorem init_state_slot (st : State) {i : Nat} {p : Pipe}
    (h : (init_state st).pipes[i]? = some p) :
    (i = 0 ∧ p = { x := 64, lx := 0, y := 24, scored := 0 }) ∨
    (i ≠ 0 ∧ p = { x := -6, lx := 0, y := 0, scored := 0 }) := by
  rw [init_state_pipes] at h
  match i, h with
  | 0, h =>
    left
    simp only [List.getElem?_cons_zero, Option.some.injEq] at h
    exact ⟨rfl, h.symm⟩
  | k + 1, h =>
    right
    rw [List.getElem?_cons_succ] at h
    have hmem := List.getElem?_mem h
    simp only [List.mem_cons, List.mem_singleton, List.not_mem_nil, or_false] at hmem
    refine ⟨Nat.succ_ne_zero k, ?_⟩
    rcases hmem with h | h | h | h | h | h | h <;> exact h

theorem init_state_not_active (st : State) {i : Nat} {p : Pipe}
    (h : (init_state st).pipes[i]? = some p) (hi : i ≠ 0) : ¬ active p := by
  rcases init_state_slot st h with ⟨h0, _⟩ | ⟨_, hp⟩
  · exact absurd h0 hi
  · rw [hp]
    unfold active
    norm_num [PIPE_WIDTH]

theorem init_state_gapOK (st : State) : GapOK (init_state st).pipes := by
  intro i p _ hp hact
  rcases init_state_slot st hp with ⟨_, hp0⟩ | ⟨hi, _⟩
  · rw [hp0]
    decide
  · exact absurd hact (init_state_not_active st hp hi)

theorem init_state_length (st : State) : (init_state st).pipes.length = PIPE_COUNT := by
  rw [init_state_pipes]
  rfl

/-! ## C2: obstacle spacing -/

/-- C3 as stated fails in the initial state: slot 1 of the pool produced by
`init_state` has gap centre 0, below `GAP_HALF + 2 = 6`. -/
theorem C3_counterexample :
    (run_update_pipes [] (init_state zero_state).pipes)[1]?
      = some { x := -6, lx := 0, y := 0, scored := 0 } ∧
    ¬ (GAP_HALF + 2 ≤ ({ x := -6, lx := 0, y := 0, scored := 0 } : Pipe).y ∧
       ({ x := -6, lx := 0, y := 0, scored := 0 } : Pipe).y ≤ FLOOR_Y - 1) := by
  constructor
  · show (init_state zero_state).pipes[1]? = _
    rw [init_state_pipes]
    rfl
  · decide

/-- C3 (amended): in every pool reached from `init_state` by `update_pipes` calls with
`dt ≥ 0` and `pipe_speed ≥ 0`, every obstacle that is active, and after at least
one call every obstacle of the pool, has
`GAP_HALF + 2 ≤ PIPE_GAP + 1 ≤ gapCenterY ≤ FLOOR_Y - 1`; the seven inactive
obstacles of the initial state have gap centre 0. -/
theorem C3_gap_bounds (st : State) (inputs : List PipesInput)
    (hin : ∀ inp ∈ inputs, 0 ≤ inp.dt ∧ 0 ≤ inp.pipe_speed)
    (p : Pipe) (hp : p ∈ run_update_pipes inputs (init_state st).pipes)
    (h : inputs ≠ [] ∨ p.x ≥ -(PIPE_WIDTH : ℚ)) :
    GAP_HALF + 2 ≤ p.y ∧ PIPE_GAP + 1 ≤ p.y ∧ p.y ≤ FLOOR_Y - 1 ∧
    (∀ (i : Nat) (q : Pipe), (init_state st).pipes[i]? = some q → i ≠ 0 →
      q.y = 0 ∧ ¬ (q.x ≥ -(PIPE_WIDTH : ℚ))) ∧
    ((init_state st).pipes.filter (fun q => decide (¬ active q))).length = 7 := by
  have hlen : (run_update_pipes inputs (init_state st).pipes).length = PIPE_COUNT := by
    rw [run_update_pipes_length, init_state_length]
  obtain ⟨i, hi⟩ := List.mem_iff_getElem?.mp hp
  have hlt : i < PIPE_COUNT := by
    rw [← hlen]; exact (List.getElem?_eq_some.mp hi).1
  have hb : PIPE_GAP + 1 ≤ p.y ∧ p.y ≤ FLOOR_Y - 1 := by
    cases inputs with
    | nil =>
      rcases h with h | h
      · exact absurd rfl h
      · exact init_state_gapOK st i p hlt hi h
    | cons inp inputs =>
      rw [run_update_pipes_cons] at hi
      have h0 := hin inp (List.mem_cons_self _ _)
      have hall := update_pipes_allGapOK (init_state st).pipes inp.pipe_speed inp.dt inp.r
        (mul_nonneg h0.2 h0.1) (init_state_gapOK st)
      exact run_update_pipes_allGapOK inputs _
        (fun x hx => hin x (List.mem_cons_of_mem _ hx)) hall i p hlt hi
  refine ⟨?_, hb.1, hb.2, ?_, ?_⟩
  · have : GAP_HALF + 2 ≤ PIPE_GAP + 1 := by decide
    exact le_trans this hb.1
  · intro i0 q hq hi0
    rcases init_state_slot st hq with ⟨h0, _⟩ | ⟨_, hq0⟩
    · exact absurd h0 hi0
    · rw [hq0]
      constructor
      · rfl
      · norm_num [PIPE_WIDTH]
  · rw [init_state_pipes]
    decide!

/-- C3 (amended) at a concrete input: the recycled slot 1 after one update with speed 15,
dt = 1/10 and `rand()` = 3 has gap centre 19. -/
theorem C3_gap_bounds_witness :
    (run_update_pipes [{ pipe_speed := 15, dt := 1 / 10, r := fun _ => 3 }]
        (init_state zero_state).pipes)[1]?
      = some { x := 195 / 2, lx := 195 / 2, y := 19, scored := 0 } ∧
    GAP_HALF + 2 ≤ (19 : Int) ∧ PIPE_GAP + 1 ≤ (19 : Int) ∧ (19 : Int) ≤ FLOOR_Y - 1 :=
  ⟨by decide!,
    (C3_gap_bounds zero_state [{ pipe_speed := 15, dt := 1 / 10, r := fun _ => 3 }]
      (by
        intro inp hinp
        rw [List.mem_singleton] at hinp
        rw [hinp]
        norm_num)
      { x := 195 / 2, lx := 195 / 2, y := 19, scored := 0 }
      (List.getElem?_mem (by decide! :
        (run_update_pipes [{ pipe_speed := 15, dt := 1 / 10, r := fun _ => 3 }]
          (init_state zero_state).pipes)[1]?
          = some { x := 195 / 2, lx := 195 / 2, y := 19, scored := 0 }))
      (Or.inl (by simp))).1,
    (C3_gap_bounds zero_state [{ pipe_speed := 15, dt := 1 / 10, r := fun _ => 3 }]
      (by
        intro inp hinp
        rw [List.mem_singleton] at hinp
        rw [hinp]
        norm_num)
      { x := 195 / 2, lx := 195 / 2, y := 19, scored := 0 }
      (List.getElem?_mem (by decide! :
        (run_update_pipes [{ pipe_speed := 15, dt := 1 / 10, r := fun _ => 3 }]
          (init_state zero_state).pipes)[1]?
          = some { x := 195 / 2, lx := 195 / 2, y := 19, scored := 0 }))
      (Or.inl (by simp))).2.1,
    (C3_gap_bounds zero_state [{ pipe_speed := 15, dt := 1 / 10, r := fun _ => 3 }]
      (by
        intro inp hinp
        rw [List.mem_singleton] at hinp
        rw [hinp]
        norm_num)
      { x := 195 / 2, lx := 195 / 2, y := 19, scored := 0 }
      (List.getElem?_mem (by decide! :
        (run_update_pipes [{ pipe_speed := 15, dt := 1 / 10, r := fun _ => 3 }]
          (init_state zero_state).pipes)[1]?
          = some { x := 195 / 2, lx := 195 / 2, y := 19, scored := 0 }))
      (Or.inl (by simp))).2.2.1⟩

/-! ## C7: `init_state` -/

/-- C7: `init_state` produces one fixed state whatever the prior state: score 0,
speed `PIPE_START_SPEED`, player at x = 10, y = `FLOOR_Y / 2`, vy = 0, alive,
all `scored` flags 0, and exactly one active obstacle, `pipes[0]` at x = `WIDTH`,
the others at `-PIPE_WIDTH - 1`. -/
theorem C7_init_state (st : State) :
    (∀ st2 : State, init_state st = init_state st2) ∧
    (init_state st).score = 0 ∧
    (init_state st).pipe_speed = (PIPE_START_SPEED : ℚ) ∧
    (init_state st).player.x = 10 ∧
    (init_state st).player.y = (FLOOR_Y : ℚ) / 2 ∧
    (init_state st).player.y = 20 ∧
    (init_state st).player.vy = 0 ∧
    (init_state st).player.dead = 0 ∧
    (init_state st).pipes.length = PIPE_COUNT ∧
    (∀ p ∈ (init_state st).pipes, p.scored = 0) ∧
    (∀ (i : Nat) (p : Pipe), (init_state st).pipes[i]? = some p →
      (p.x ≥ -(PIPE_WIDTH : ℚ) ↔ i = 0) ∧
      (i = 0 → p.x = (WIDTH : ℚ)) ∧
      (i ≠ 0 → p.x = -(PIPE_WIDTH : ℚ) - 1)) := by
  have hp := init_state_pipes st
  refine ⟨fun _ => rfl, rfl, rfl, rfl, ?_, ?_, rfl, rfl, ?_, ?_, ?_⟩
  · simp [init_state, zero_state, FLOOR_Y]
    norm_num
  · simp [init_state, zero_state, FLOOR_Y]
    norm_num
  · rw [hp]; rfl
  · rw [hp]
    intro p hmem
    simp only [List.mem_cons, List.mem_singleton, List.not_mem_nil, or_false] at hmem
    rcases hmem with h | h | h | h | h | h | h | h <;> rw [h]
  · rw [hp]
    intro i p hi
    match i, hi with
    | 0, hi =>
      simp only [List.getElem?_cons_zero, Option.some.injEq] at hi
      subst hi
      norm_num [PIPE_WIDTH, WIDTH]
    | k + 1, hi =>
      rw [List.getElem?_cons_succ] at hi
      have hmem := List.getElem?_mem hi
      simp only [List.mem_cons, List.mem_singleton, List.not_mem_nil, or_false] at hmem
      have hx : p.x = -6 := by
        rcases hmem with h | h | h | h | h | h | h <;> rw [h]
      rw [hx]
      norm_num [PIPE_WIDTH]

/-- C7 at the scenario input: a dead state with score 7 and speed 30 is reset. -/
theorem C7_init_state_witness :
    (init_state { player := { x := 10, y := 40, ly := 39, vy := 0, dead := 1 },
                  pipes := [], score := 7, pipe_speed := 30 }).score = 0 ∧
    (init_state { player := { x := 10, y := 40, ly := 39, vy := 0, dead := 1 },
                  pipes := [], score := 7, pipe_speed := 30 }).player.dead = 0 ∧
    (init_state { player := { x := 10, y := 40, ly := 39, vy := 0, dead := 1 },
                  pipes := [], score := 7, pipe_speed := 30 }).pipe_speed = 15 :=
  ⟨(C7_init_state _).2.1, (C7_init_state _).2.2.2.2.2.2.2.1,
    by rw [(C7_init_state _).2.2.1]; norm_num [PIPE_START_SPEED]⟩

/-! ## Scoring -/

/-- The score after the straddle branch: up by one exactly in the scoring case. -/
theorem collide_at_score (player : Player) (pipes : List Pipe) (score : Int)
    (k : Nat) (pipe : Pipe) :
    (collide_at player pipes score k pipe).2.2
      = if in_gap player pipe ∧ pipe.scored = 0 then score + 1 else score := by
  unfold collide_at
  by_cases hb : hits_body player pipe
  · have hg : ¬ in_gap player pipe := fun hg => (in_gap_iff_not_hits_body _ _).mp hg hb
    rw [if_pos hb, if_neg (fun h => hg h.1)]
  · have hg : in_gap player pipe := (in_gap_iff_not_hits_body _ _).mpr hb
    rw [if_neg hb]
    by_cases hs : pipe.scored = 0
    · rw [if_pos hs, if_pos ⟨hg, hs⟩]
    · rw [if_neg hs, if_neg (fun h => hs h.2)]

/-- A slot whose `scored` flag is set keeps a set flag through the straddle branch. -/
theorem collide_at_scored (player : Player) (pipes : List Pipe) (score : Int)
    (k : Nat) (pipe : Pipe) {i : Nat} {p : Pipe} (hp : pipes[i]? = some p)
    (hs : p.scored ≠ 0) :
    ∃ p2, (collide_at player pipes score k pipe).2.1[i]? = some p2 ∧ p2.scored ≠ 0 := by
  unfold collide_at
  split
  · exact ⟨p, hp, hs⟩
  · split
    · by_cases hki : k = i
      · subst hki
        have hlt : k < pipes.length := (List.getElem?_eq_some.mp hp).1
        refine ⟨_, List.getElem?_set_self hlt, ?_⟩
        show (1 : Int) ≠ 0
        decide
      · exact ⟨p, by rw [List.getElem?_set_ne hki]; exact hp, hs⟩
    · exact ⟨p, hp, hs⟩

theorem collide_scored (player : Player) (pipes : List Pipe) (score : Int)
    {i : Nat} {p : Pipe} (hp : pipes[i]? = some p) (hs : p.scored ≠ 0) :
    ∃ p2, (collide_player_with_pipes player pipes score).2.1[i]? = some p2 ∧
      p2.scored ≠ 0 := by
  rcases collide_cases player pipes score with ⟨_, hres⟩ | ⟨k, pipe, _, _, _, hres⟩
  · rw [hres]
    exact ⟨p, hp, hs⟩
  · rw [hres]
    exact collide_at_scored player pipes score k pipe hp hs

/-- The score goes up exactly when the first straddling slot has the player in its gap
and is not yet scored; its flag is then set. -/
theorem collide_score_iff (player : Player) (pipes : List Pipe) (score : Int) :
    ((collide_player_with_pipes player pipes score).2.2 = score ∨
      (collide_player_with_pipes player pipes score).2.2 = score + 1) ∧
    ((collide_player_with_pipes player pipes score).2.2 = score + 1 ↔
      ∃ k pipe, FirstStraddler player pipes k ∧ pipes[k]? = some pipe ∧
        in_gap player pipe ∧ pipe.scored = 0) ∧
    (∀ k pipe, FirstStraddler player pipes k → pipes[k]? = some pipe →
      in_gap player pipe → pipe.scored = 0 →
      (collide_player_with_pipes player pipes score).2.1
        = pipes.set k { pipe with scored := 1 }) := by
  rcases collide_cases player pipes score with ⟨hno, hres⟩ | ⟨k, pipe, hfs, hk, _, hres⟩
  · rw [hres]
    refine ⟨Or.inl rfl, ⟨fun h => absurd h (by simp), ?_⟩, ?_⟩
    · rintro ⟨k, _, hfs, _⟩
      have := hno k hfs.1
      rw [hfs.2.1] at this
      exact absurd this (by decide)
    · intro k _ hfs
      have := hno k hfs.1
      rw [hfs.2.1] at this
      exact absurd this (by decide)
  · rw [hres, collide_at_score]
    refine ⟨?_, ⟨?_, ?_⟩, ?_⟩
    · split
      · right; rfl
      · left; rfl
    · intro h
      split at h
      · rename_i hc
        exact ⟨k, pipe, hfs, hk, hc.1, hc.2⟩
      · exact absurd h (by simp)
    · rintro ⟨k2, pipe2, hfs2, hk2, hg, hs⟩
      have hkk := hfs.unique hfs2
      subst hkk
      rw [hk] at hk2
      cases hk2
      rw [if_pos ⟨hg, hs⟩]
    · intro k2 pipe2 hfs2 hk2 hg hs
      have hkk := hfs.unique hfs2
      subst hkk
      rw [hk] at hk2
      cases hk2
      unfold collide_at
      rw [if_neg ((in_gap_iff_not_hits_body _ _).mp hg), if_pos hs]

/-! ## Scoring over a sequence of frames -/

theorem frame_pipes (st : State) (inp : FrameInput) :
    (frame st inp).pipes
      = (collide_player_with_pipes (update_player st.player inp.dt inp.should_jump)
          (update_pipes st.pipes st.pipe_speed inp.dt inp.r) st.score).2.1 := by
  unfold frame
  dsimp only

theorem frame_score (st : State) (inp : FrameInput) :
    (frame st inp).score
      = (collide_player_with_pipes (update_player st.player inp.dt inp.should_jump)
          (update_pipes st.pipes st.pipe_speed inp.dt inp.r) st.score).2.2 := by
  unfold frame
  dsimp only

/-- A slot that is not recycled keeps its `scored` flag through `update_pipes`. -/
theorem update_pipes_keeps_scored (pipes : List Pipe) (pipe_speed dt : ℚ) (r : Nat → Nat)
    {i : Nat} {p : Pipe} (hp : pipes[i]? = some p)
    (hrec : ¬ p.x - pipe_speed * dt < -(PIPE_WIDTH : ℚ)) :
    ∃ p1, (update_pipes pipes pipe_speed dt r)[i]? = some p1 ∧ p1.scored = p.scored := by
  by_cases hi : i < PIPE_COUNT
  · rw [update_pipes_getElem pipes pipe_speed dt r hi hp, if_neg hrec]
    exact ⟨_, rfl, rfl⟩
  · rw [update_pipes_eq_upto, update_pipes_upto_ge _ _ _ (not_lt.mp hi)]
    exact ⟨p, hp, rfl⟩

theorem frame_keeps_scored (st : State) (inp : FrameInput) {i : Nat} {p : Pipe}
    (hp : st.pipes[i]? = some p) (hs : p.scored ≠ 0) (hrec : ¬ recycled_in i st inp) :
    ∃ p2, (frame st inp).pipes[i]? = some p2 ∧ p2.scored ≠ 0 := by
  unfold recycled_in at hrec
  rw [hp] at hrec
  obtain ⟨p1, hp1, hs1⟩ := update_pipes_keeps_scored st.pipes st.pipe_speed inp.dt inp.r hp hrec
  rw [frame_pipes]
  exact collide_scored _ _ _ hp1 (by rw [hs1]; exact hs)

theorem not_credited_of_scored (st : State) (inp : FrameInput) {i : Nat} {p : Pipe}
    (hp : st.pipes[i]? = some p) (hs : p.scored ≠ 0) (hrec : ¬ recycled_in i st inp) :
    ¬ credited i st inp := by
  rintro ⟨hfs, hscore⟩
  unfold recycled_in at hrec
  rw [hp] at hrec
  obtain ⟨p1, hp1, hs1⟩ := update_pipes_keeps_scored st.pipes st.pipe_speed inp.dt inp.r hp hrec
  rw [frame_score] at hscore
  obtain ⟨k, pipe, hfs2, hk, _, hzero⟩ := (collide_score_iff _ _ _).2.1.mp hscore
  have hkk := hfs.unique hfs2
  subst hkk
  rw [hp1] at hk
  cases hk
  rw [hs1] at hzero
  exact hs hzero

theorem scored_of_credited (st : State) (inp : FrameInput) {i : Nat}
    (h : credited i st inp) :
    ∃ p2, (frame st inp).pipes[i]? = some p2 ∧ p2.scored ≠ 0 := by
  obtain ⟨hfs, hscore⟩ := h
  rw [frame_score] at hscore
  obtain ⟨k, pipe, hfs2, hk, hg, hzero⟩ := (collide_score_iff _ _ _).2.1.mp hscore
  have hkk := hfs.unique hfs2
  subst hkk
  rw [frame_pipes, (collide_score_iff _ _ _).2.2 i pipe hfs hk hg hzero]
  have hlt := (List.getElem?_eq_some.mp hk).1
  refine ⟨_, List.getElem?_set_self hlt, ?_⟩
  show (1 : Int) ≠ 0
  decide

theorem count_credits_of_scored (i : Nat) (inps : List FrameInput) (st : State) {p : Pipe}
    (hp : st.pipes[i]? = some p) (hs : p.scored ≠ 0) (hnr : never_recycled i st inps) :
    count_credits i st inps = 0 := by
  induction inps generalizing st p with
  | nil => rfl
  | cons inp rest ih =>
    obtain ⟨hrec, hnr2⟩ := hnr
    obtain ⟨p2, hp2, hs2⟩ := frame_keeps_scored st inp hp hs hrec
    unfold count_credits
    rw [if_neg (not_credited_of_scored st inp hp hs hrec), ih (frame st inp) hp2 hs2 hnr2]

theorem count_credits_le_one (i : Nat) (inps : List FrameInput) (st : State)
    (hnr : never_recycled i st inps) : count_credits i st inps ≤ 1 := by
  induction inps generalizing st with
  | nil => exact Nat.zero_le 1
  | cons inp rest ih =>
    obtain ⟨_, hnr2⟩ := hnr
    unfold count_credits
    by_cases hc : credited i st inp
    · obtain ⟨p2, hp2, hs2⟩ := scored_of_credited st inp hc
      rw [if_pos hc, count_credits_of_scored i rest (frame st inp) hp2 hs2 hnr2]
    · rw [if_neg hc, Nat.zero_add]
      exact ih (frame st inp) hnr2

/-! ## C4: score monotonicity -/

/-- C4: `collide_player_with_pipes` never decreases the score and changes it by 0 or 1;
it adds 1 exactly when the first slot in pool order that straddles the player's x
has the player's y strictly inside its gap and `scored = 0`, and then sets that
slot's `scored` flag; over any sequence of frames in which a slot is not recycled
the score is incremented for it at most once. -/
theorem C4_score_monotone (player : Player) (pipes : List Pipe) (score : Int) :
    score ≤ (collide_player_with_pipes player pipes score).2.2 ∧
    ((collide_player_with_pipes player pipes score).2.2 = score ∨
      (collide_player_with_pipes player pipes score).2.2 = score + 1) ∧
    ((collide_player_with_pipes player pipes score).2.2 = score + 1 ↔
      ∃ k pipe, FirstStraddler player pipes k ∧ pipes[k]? = some pipe ∧
        in_gap player pipe ∧ pipe.scored = 0) ∧
    (∀ k pipe, FirstStraddler player pipes k → pipes[k]? = some pipe →
      in_gap player pipe → pipe.scored = 0 →
      (collide_player_with_pipes player pipes score).2.1
        = pipes.set k { pipe with scored := 1 }) ∧
    (∀ (i : Nat) (st : State) (inps : List FrameInput),
      never_recycled i st inps → count_credits i st inps ≤ 1) := by
  obtain ⟨h1, h2, h3⟩ := collide_score_iff player pipes score
  refine ⟨?_, h1, h2, h3, fun i st inps => count_credits_le_one i inps st⟩
  rcases h1 with h | h <;> rw [h]
  omega

/-- C4 at a concrete input: a pipe at x = 21/2 with gap centre 24 passes a player at
x = 10, y = 20 in two frames of dt = 1/10 without being recycled; the score is
incremented for it at most once. -/
theorem C4_score_monotone_witness :
    count_credits 0
      { player := { x := 10, y := 20, ly := 20, vy := 0, dead := 0 },
        pipes := [{ x := 21 / 2, lx := 12, y := 24, scored := 0 }],
        score := 0, pipe_speed := 15 }
      [{ dt := 1 / 10, should_jump := 0, r := fun _ => 0 },
       { dt := 1 / 10, should_jump := 0, r := fun _ => 0 }] ≤ 1 :=
  (C4_score_monotone { x := 10, y := 20, ly := 20, vy := 0, dead := 0 } [] 0).2.2.2.2 0
    { player := { x := 10, y := 20, ly := 20, vy := 0, dead := 0 },
      pipes := [{ x := 21 / 2, lx := 12, y := 24, scored := 0 }],
      score := 0, pipe_speed := 15 }
    [{ dt := 1 / 10, should_jump := 0, r := fun _ => 0 },
     { dt := 1 / 10, should_jump := 0, r := fun _ => 0 }]
    ⟨by decide!, by decide!, trivial⟩

/-! ## C16: a dead actor ignores the jump flag -/

/-- C16: for a dead player (`dead = 1`) and every dt, `update_player` with
`should_jump = 1` gives the same state as with `should_jump = 0`: vy grows by
`GRAVITY * dt`, y advances by the new vy times dt, then the floor clamp applies. -/
theorem C16_dead_ignores_jump (p : Player) (dt : ℚ) (hdead : p.dead = 1) :
    update_player p dt 1 = update_player p dt 0 ∧
    update_player p dt 1 =
      (if p.y + (p.vy + (GRAVITY : ℚ) * dt) * dt ≥ (FLOOR_Y : ℚ) then
        { p with ly := p.y, dead := 1, y := (FLOOR_Y : ℚ), vy := 0 }
      else
        { p with ly := p.y, vy := p.vy + (GRAVITY : ℚ) * dt,
                 y := p.y + (p.vy + (GRAVITY : ℚ) * dt) * dt }) := by
  have hv : ∀ j : Int, integrated_vy p dt j = p.vy + (GRAVITY : ℚ) * dt := by
    intro j
    unfold integrated_vy
    rw [if_neg]
    rintro ⟨h0, _⟩
    rw [hdead] at h0
    exact absurd h0 (by decide)
  constructor
  · unfold update_player
    rw [hv 1, hv 0]
  · unfold update_player
    rw [hv 1]

/-- C16 at a concrete input: a dead player at y = 30 falling with vy = 2; the jump flag
changes nothing and the player keeps falling. -/
theorem C16_dead_ignores_jump_witness :
    update_player { x := 10, y := 30, ly := 29, vy := 2, dead := 1 } (1 / 10) 1
      = update_player { x := 10, y := 30, ly := 29, vy := 2, dead := 1 } (1 / 10) 0 ∧
    update_player { x := 10, y := 30, ly := 29, vy := 2, dead := 1 } (1 / 10) 1
      = { x := 10, y := 307 / 10, ly := 30, vy := 7, dead := 1 } := by
  have h := C16_dead_ignores_jump { x := 10, y := 30, ly := 29, vy := 2, dead := 1 }
    (1 / 10) rfl
  refine ⟨h.1, ?_⟩
  rw [h.2]
  norm_num [GRAVITY, FLOOR_Y]

/-! ## C17: a dead actor can still score -/

/-- C17: there is a dead player above the floor and a pool with an unscored obstacle
that straddles the player's x with the player's y in its gap, for which
`collide_player_with_pipes` raises the score by 1. -/
theorem C17_dead_actor_scores :
    ∃ (player : Player) (pipes : List Pipe) (score : Int) (pipe : Pipe),
      player.dead = 1 ∧ player.y < (FLOOR_Y : ℚ) ∧
      pipes.length = PIPE_COUNT ∧ pipes[0]? = some pipe ∧
      pipe.scored = 0 ∧ straddles player pipe ∧ in_gap player pipe ∧
      (collide_player_with_pipes player pipes score).2.2 = score + 1 ∧
      (collide_player_with_pipes player pipes score).1.dead = 1 := by
  refine ⟨{ x := 10, y := 20, ly := 19, vy := 5, dead := 1 },
    [{ x := 8, lx := 9, y := 24, scored := 0 }, { x := 43, lx := 44, y := 20, scored := 0 },
     { x := 78, lx := 79, y := 20, scored := 0 }, { x := 113, lx := 114, y := 20, scored := 0 },
     { x := 148, lx := 149, y := 20, scored := 0 }, { x := 183, lx := 184, y := 20, scored := 0 },
     { x := 218, lx := 219, y := 20, scored := 0 }, { x := 253, lx := 254, y := 20, scored := 0 }],
    3, { x := 8, lx := 9, y := 24, scored := 0 }, rfl, ?_, rfl, rfl, rfl, ?_, ?_, ?_, ?_⟩
  · norm_num [FLOOR_Y]
  · unfold straddles
    norm_num [PIPE_WIDTH]
  · unfold in_gap
    norm_num [PIPE_GAP]
  · decide!
  · decide!

/-! ## C18: the effect of `update_pipes` on each obstacle -/

/-- C18: `update_pipes` sets, for an obstacle whose moved position `x - speed * dt` is
`≥ -PIPE_WIDTH`, `lx` to the old x and `x` to `x - speed * dt`, leaving the gap
centre and `scored` unchanged; a recycled obstacle ends with `lx` equal to its new
x and `scored = 0`. -/
theorem C18_update_pipes_effect (pipes : List Pipe) (pipe_speed dt : ℚ) (r : Nat → Nat)
    (i : Nat) (p : Pipe) (hi : i < PIPE_COUNT) (h : pipes[i]? = some p) :
    (p.x - pipe_speed * dt ≥ -(PIPE_WIDTH : ℚ) →
      (update_pipes pipes pipe_speed dt r)[i]?
        = some { x := p.x - pipe_speed * dt, lx := p.x, y := p.y, scored := p.scored }) ∧
    (p.x - pipe_speed * dt < -(PIPE_WIDTH : ℚ) →
      ∃ p2, (update_pipes pipes pipe_speed dt r)[i]? = some p2 ∧
        p2.lx = p2.x ∧ p2.scored = 0) := by
  have hget := update_pipes_getElem pipes pipe_speed dt r hi h
  constructor
  · intro hge
    rw [hget, if_neg (not_lt.mpr hge)]
  · intro hlt
    rw [hget, if_pos hlt]
    exact ⟨_, rfl, rfl, rfl⟩

/-- C18 at a concrete input: in the first update of the initial pool with speed 15 and
dt = 1/10, slot 0 moves from 64 to 125/2 and slot 1 is recycled to 195/2. -/
theorem C18_update_pipes_effect_witness :
    (update_pipes (init_state zero_state).pipes 15 (1 / 10) (fun _ => 3))[0]?
      = some { x := 64 - 15 * (1 / 10), lx := 64, y := 24, scored := 0 } ∧
    (update_pipes (init_state zero_state).pipes 15 (1 / 10) (fun _ => 3))[1]?
      = some { x := 195 / 2, lx := 195 / 2, y := 19, scored := 0 } ∧
    ({ x := 195 / 2, lx := 195 / 2, y := 19, scored := 0 } : Pipe).lx
      = ({ x := 195 / 2, lx := 195 / 2, y := 19, scored := 0 } : Pipe).x ∧
    ({ x := 195 / 2, lx := 195 / 2, y := 19, scored := 0 } : Pipe).scored = 0 := by
  have hc : (update_pipes (init_state zero_state).pipes 15 (1 / 10) (fun _ => 3))[1]?
      = some { x := 195 / 2, lx := 195 / 2, y := 19, scored := 0 } := by decide!
  obtain ⟨p2, h1, h2, h3⟩ :=
    (C18_update_pipes_effect (init_state zero_state).pipes 15 (1 / 10) (fun _ => 3) 1
      { x := -6, lx := 0, y := 0, scored := 0 } (by decide) (by decide!)).2
      (by norm_num [PIPE_WIDTH])
  rw [hc] at h1
  cases h1
  exact ⟨(C18_update_pipes_effect (init_state zero_state).pipes 15 (1 / 10) (fun _ => 3) 0
      { x := 64, lx := 0, y := 24, scored := 0 } (by decide) (by decide!)).1
      (by norm_num [PIPE_WIDTH]), hc, h2, h3⟩

/-! ## C12: the gap centre of a recycled obstacle -/

theorem recycle_y_eq (ny : Int) (rnd : Nat) :
    -PIPE_SPREAD ≤ (rnd : Int) % (PIPE_SPREAD * 2) - PIPE_SPREAD ∧
    (rnd : Int) % (PIPE_SPREAD * 2) - PIPE_SPREAD ≤ PIPE_SPREAD ∧
    recycle_y ny rnd
      = max (PIPE_GAP + 1) (min (FLOOR_Y - 1) (ny + ((rnd : Int) % (PIPE_SPREAD * 2) - PIPE_SPREAD))) := by
  unfold recycle_y PIPE_GAP FLOOR_Y PIPE_SPREAD
  dsimp only
  refine ⟨by omega, by omega, ?_⟩
  split_ifs <;> omega

/-- C12: the gap centre of a recycled obstacle is the reference gap centre found by the
scan plus an offset in `[-PIPE_SPREAD, PIPE_SPREAD]`, clamped into
`[PIPE_GAP + 1, FLOOR_Y - 1]`; it lies in `[GAP_HALF + 2, FLOOR_Y - 1]`, so the gap
edge rows `y - PIPE_GAP` and `y` are at least row 1 and above the floor row. -/
theorem C12_recycled_gap_centre (pipes : List Pipe) (pipe_speed dt : ℚ) (r : Nat → Nat)
    (i : Nat) (p : Pipe) (hi : i < PIPE_COUNT) (h : pipes[i]? = some p)
    (hrec : p.x - pipe_speed * dt < -(PIPE_WIDTH : ℚ)) :
    ∃ (p2 : Pipe) (off : Int),
      (update_pipes pipes pipe_speed dt r)[i]? = some p2 ∧
      off = (r i : Int) % (PIPE_SPREAD * 2) - PIPE_SPREAD ∧
      -PIPE_SPREAD ≤ off ∧ off ≤ PIPE_SPREAD ∧
      p2.y = max (PIPE_GAP + 1) (min (FLOOR_Y - 1)
        ((scan_max ((update_pipes_upto (pipe_speed * dt) r pipes i).set i
            { p with lx := p.x, x := p.x - pipe_speed * dt })).2 + off)) ∧
      GAP_HALF + 2 ≤ p2.y ∧ PIPE_GAP + 1 ≤ p2.y ∧ p2.y ≤ FLOOR_Y - 1 ∧
      1 ≤ p2.y - PIPE_GAP ∧ p2.y < FLOOR_Y := by
  have hget := update_pipes_getElem pipes pipe_speed dt r hi h
  rw [if_pos hrec] at hget
  obtain ⟨hlo, hhi, heq⟩ := recycle_y_eq
    (scan_max ((update_pipes_upto (pipe_speed * dt) r pipes i).set i
      { p with lx := p.x, x := p.x - pipe_speed * dt })).2 (r i)
  have hb := recycle_y_bounds
    (scan_max ((update_pipes_upto (pipe_speed * dt) r pipes i).set i
      { p with lx := p.x, x := p.x - pipe_speed * dt })).2 (r i)
  refine ⟨_, _, hget, rfl, hlo, hhi, heq, ?_, hb.1, hb.2, ?_, ?_⟩
  · exact le_trans (by decide : GAP_HALF + 2 ≤ PIPE_GAP + 1) hb.1
  · have := hb.1
    dsimp only
    omega
  · have := hb.2
    dsimp only
    omega

/-- C12 at a concrete input: slot 1 of the initial pool, recycled in the first update
with `rand()` = 3, gets gap centre 19, between 9 and 39. -/
theorem C12_recycled_gap_centre_witness :
    (update_pipes (init_state zero_state).pipes 15 (1 / 10) (fun _ => 3))[1]?
      = some { x := 195 / 2, lx := 195 / 2, y := 19, scored := 0 } ∧
    PIPE_GAP + 1 ≤ (19 : Int) ∧ (19 : Int) ≤ FLOOR_Y - 1 := by
  have hc : (update_pipes (init_state zero_state).pipes 15 (1 / 10) (fun _ => 3))[1]?
      = some { x := 195 / 2, lx := 195 / 2, y := 19, scored := 0 } := by decide!
  obtain ⟨p2, _, h1, _, _, _, _, _, h2, h3, _⟩ :=
    C12_recycled_gap_centre (init_state zero_state).pipes 15 (1 / 10) (fun _ => 3) 1
      { x := -6, lx := 0, y := 0, scored := 0 } (by decide) (by decide!)
      (by norm_num [PIPE_WIDTH])
  rw [hc] at h1
  cases h1
  exact ⟨hc, h2, h3⟩

/-! ## C20: every obstacle is active after `update_pipes` -/

theorem run_update_pipes_nil (pipes : List Pipe) : run_update_pipes [] pipes = pipes := by
  unfold run_update_pipes
  rw [List.foldl_nil]

theorem run_update_pipes_all_active (inputs : List PipesInput) (pipes : List Pipe)
    (hne : inputs ≠ []) (i : Nat) (p : Pipe) (hi : i < PIPE_COUNT)
    (hp : (run_update_pipes inputs pipes)[i]? = some p) : active p := by
  induction inputs generalizing pipes with
  | nil => exact absurd rfl hne
  | cons inp rest ih =>
    rw [run_update_pipes_cons] at hp
    cases rest with
    | nil =>
      rw [run_update_pipes_nil] at hp
      exact (update_pipes_slot pipes inp.pipe_speed inp.dt inp.r hi hp).1
    | cons inp2 rest2 => exact ih _ (List.cons_ne_nil _ _) hp

/-- C20: after any `update_pipes` call every obstacle of the pool has
`x ≥ -PIPE_WIDTH`, a recycled one even `x ≥ PIPE_WIDTH + PIPE_SPACING`; the pool
of `init_state` has `PIPE_COUNT - 1` inactive obstacles, and after one or more
updates of it none is left. -/
theorem C20_all_active_after_update (pipes : List Pipe) (pipe_speed dt : ℚ) (r : Nat → Nat) :
    (∀ i p2, i < PIPE_COUNT → (update_pipes pipes pipe_speed dt r)[i]? = some p2 →
      p2.x ≥ -(PIPE_WIDTH : ℚ)) ∧
    (∀ i p, i < PIPE_COUNT → pipes[i]? = some p →
      p.x - pipe_speed * dt < -(PIPE_WIDTH : ℚ) →
      ∃ p2, (update_pipes pipes pipe_speed dt r)[i]? = some p2 ∧
        p2.x ≥ ((PIPE_WIDTH + PIPE_SPACING : Int) : ℚ)) ∧
    (pipes.length = PIPE_COUNT →
      ∀ p2 ∈ update_pipes pipes pipe_speed dt r, p2.x ≥ -(PIPE_WIDTH : ℚ)) ∧
    (∀ st : State,
      ((init_state st).pipes.filter (fun q => decide (¬ active q))).length = PIPE_COUNT - 1) ∧
    (∀ (st : State) (inputs : List PipesInput), inputs ≠ [] →
      ∀ p2 ∈ run_update_pipes inputs (init_state st).pipes, p2.x ≥ -(PIPE_WIDTH : ℚ)) := by
  refine ⟨?_, ?_, ?_, ?_, ?_⟩
  · intro i p2 hi h2
    exact (update_pipes_slot pipes pipe_speed dt r hi h2).1
  · intro i p hi hp hrec
    rw [update_pipes_getElem pipes pipe_speed dt r hi hp, if_pos hrec]
    refine ⟨_, rfl, ?_⟩
    dsimp only
    have := scan_max_nonneg ((update_pipes_upto (pipe_speed * dt) r pipes i).set i
      { p with lx := p.x, x := p.x - pipe_speed * dt })
    linarith
  · intro hlen p2 hmem
    obtain ⟨i, hi⟩ := List.mem_iff_getElem?.mp hmem
    have hlt : i < PIPE_COUNT := by
      rw [← hlen, ← update_pipes_length pipes pipe_speed dt r]
      exact (List.getElem?_eq_some.mp hi).1
    exact (update_pipes_slot pipes pipe_speed dt r hlt hi).1
  · intro st
    rw [init_state_pipes]
    decide!
  · intro st inputs hne p2 hmem
    obtain ⟨i, hi⟩ := List.mem_iff_getElem?.mp hmem
    have hlt : i < PIPE_COUNT := by
      rw [← init_state_length st, ← run_update_pipes_length inputs]
      exact (List.getElem?_eq_some.mp hi).1
    exact run_update_pipes_all_active inputs _ hne i p2 hlt hi

/-- C20 at a concrete input: after the first update of the initial pool with speed 15 and
dt = 1/10 the recycled slot 1 is at 195/2, right of `PIPE_WIDTH + PIPE_SPACING`. -/
theorem C20_all_active_after_update_witness :
    (update_pipes (init_state zero_state).pipes 15 (1 / 10) (fun _ => 3))[1]?
      = some { x := 195 / 2, lx := 195 / 2, y := 19, scored := 0 } ∧
    (195 / 2 : ℚ) ≥ -(PIPE_WIDTH : ℚ) ∧
    (195 / 2 : ℚ) ≥ ((PIPE_WIDTH + PIPE_SPACING : Int) : ℚ) := by
  have hc : (update_pipes (init_state zero_state).pipes 15 (1 / 10) (fun _ => 3))[1]?
      = some { x := 195 / 2, lx := 195 / 2, y := 19, scored := 0 } := by decide!
  have h := C20_all_active_after_update (init_state zero_state).pipes 15 (1 / 10) (fun _ => 3)
  obtain ⟨p2, h1, h2⟩ := h.2.1 1 { x := -6, lx := 0, y := 0, scored := 0 } (by decide)
    (by decide!) (by norm_num [PIPE_WIDTH])
  rw [hc] at h1
  cases h1
  exact ⟨hc, h.1 1 _ (by decide) hc, h2⟩

/-! ## C13: the actor invariant -/

theorem run_frames_cons (inp : FrameInput) (inputs : List FrameInput) (st : State) :
    run_frames (inp :: inputs) st = run_frames inputs (frame st inp) := by
  unfold run_frames
  rw [List.foldl_cons]

theorem run_frames_nil (st : State) : run_frames [] st = st := by
  unfold run_frames
  rw [List.foldl_nil]

theorem frame_player (st : State) (inp : FrameInput) :
    (frame st inp).player
      = (collide_player_with_pipes (update_player st.player inp.dt inp.should_jump)
          (update_pipes st.pipes st.pipe_speed inp.dt inp.r) st.score).1 := by
  unfold frame
  dsimp only

/-- After `update_player` the player is below the floor line, or on it, dead and at
rest. -/
theorem update_player_floor (p : Player) (dt : ℚ) (should_jump : Int) :
    (update_player p dt should_jump).y ≤ (FLOOR_Y : ℚ) ∧
    ((update_player p dt should_jump).y = (FLOOR_Y : ℚ) →
      (update_player p dt should_jump).dead = 1 ∧ (update_player p dt should_jump).vy = 0) := by
  unfold update_player
  dsimp only
  split
  · exact ⟨le_refl _, fun _ => ⟨rfl, rfl⟩⟩
  · rename_i h
    have hlt := not_le.mp h
    exact ⟨le_of_lt hlt, fun heq => absurd heq (ne_of_lt hlt)⟩

theorem frame_actorOK (st : State) (inp : FrameInput) (h : ActorOK st.player) :
    ActorOK (frame st inp).player := by
  have hu := update_player_floor st.player inp.dt inp.should_jump
  have hd := update_player_dead_cases st.player inp.dt inp.should_jump
  have hflag : (update_player st.player inp.dt inp.should_jump).dead = 0 ∨
      (update_player st.player inp.dt inp.should_jump).dead = 1 := by
    rcases hd with hd | hd
    · rw [hd]; exact h.2.2
    · right; exact hd
  rw [frame_player]
  unfold collide_player_with_pipes
  rcases collide_from_player (update_player st.player inp.dt inp.should_jump)
    (update_pipes st.pipes st.pipe_speed inp.dt inp.r) st.score PIPE_COUNT 0 with hc | hc
  · rw [hc]
    exact ⟨hu.1, hu.2, hflag⟩
  · rw [hc]
    exact ⟨hu.1, fun heq => ⟨rfl, (hu.2 heq).2⟩, Or.inr rfl⟩

theorem run_frames_actorOK (inputs : List FrameInput) (st : State) (h : ActorOK st.player) :
    ActorOK (run_frames inputs st).player := by
  induction inputs generalizing st with
  | nil => rw [run_frames_nil]; exact h
  | cons inp rest ih =>
    rw [run_frames_cons]
    exact ih _ (frame_actorOK st inp h)

/-- C13 as stated fails after a pipe collision: one frame of dt = 3.6 with a jump, run
from the initial state, brings `pipes[0]` to x = 10 and the player to y = -52 on
the upper pipe body; the player is dead with vy = -20 and y = -52. -/
theorem C13_counterexample :
    (run_frames [{ dt := 18 / 5, should_jump := 1, r := fun _ => 3 }]
      (init_state zero_state)).player
      = { x := 10, y := -52, ly := 20, vy := -20, dead := 1 } ∧
    ¬ ((-20 : ℚ) = 0 ∧ (-52 : ℚ) = (FLOOR_Y : ℚ)) := by
  constructor
  · decide!
  · norm_num [FLOOR_Y]

/-- C13 (amended): in every state reachable from `init_state` through frames the actor's
y is at most `FLOOR_Y`; an actor on the floor line is dead with vy = 0; a dead
actor is either on the floor line with vy = 0 or still above it (y < `FLOOR_Y`). -/
theorem C13_actor_invariant (st : State) (inputs : List FrameInput) :
    (run_frames inputs (init_state st)).player.y ≤ (FLOOR_Y : ℚ) ∧
    ((run_frames inputs (init_state st)).player.y = (FLOOR_Y : ℚ) →
      (run_frames inputs (init_state st)).player.dead = 1 ∧
      (run_frames inputs (init_state st)).player.vy = 0) ∧
    ((run_frames inputs (init_state st)).player.dead = 1 →
      ((run_frames inputs (init_state st)).player.vy = 0 ∧
        (run_frames inputs (init_state st)).player.y = (FLOOR_Y : ℚ)) ∨
      (run_frames inputs (init_state st)).player.y < (FLOOR_Y : ℚ)) ∧
    ((run_frames inputs (init_state st)).player.dead = 0 ∨
      (run_frames inputs (init_state st)).player.dead = 1) := by
  have h0 : ActorOK (init_state st).player := by
    have hy : (init_state st).player.y = 20 := by
      simp [init_state, zero_state, FLOOR_Y]
      norm_num
    have hdead : (init_state st).player.dead = 0 := rfl
    refine ⟨?_, ?_, Or.inl hdead⟩
    · rw [hy]; norm_num [FLOOR_Y]
    · intro heq
      rw [hy] at heq
      norm_num [FLOOR_Y] at heq
  obtain ⟨h1, h2, h3⟩ := run_frames_actorOK inputs _ h0
  refine ⟨h1, h2, ?_, h3⟩
  intro _
  rcases lt_or_eq_of_le h1 with hlt | heq
  · right; exact hlt
  · left; exact ⟨(h2 heq).2, heq⟩

/-- C13 (amended) at a concrete input: three frames of dt = 1 without a jump drop the
actor to the floor, where it is dead with vy = 0. -/
theorem C13_actor_invariant_witness :
    (run_frames [{ dt := 1, should_jump := 0, r := fun _ => 3 },
        { dt := 1, should_jump := 0, r := fun _ => 3 },
        { dt := 1, should_jump := 0, r := fun _ => 3 }] (init_state zero_state)).player.y
      = (FLOOR_Y : ℚ) ∧
    (run_frames [{ dt := 1, should_jump := 0, r := fun _ => 3 },
        { dt := 1, should_jump := 0, r := fun _ => 3 },
        { dt := 1, should_jump := 0, r := fun _ => 3 }] (init_state zero_state)).player.dead
      = 1 ∧
    (run_frames [{ dt := 1, should_jump := 0, r := fun _ => 3 },
        { dt := 1, should_jump := 0, r := fun _ => 3 },
        { dt := 1, should_jump := 0, r := fun _ => 3 }] (init_state zero_state)).player.vy
      = 0 := by
  have hy : (run_frames [{ dt := 1, should_jump := 0, r := fun _ => 3 },
        { dt := 1, should_jump := 0, r := fun _ => 3 },
        { dt := 1, should_jump := 0, r := fun _ => 3 }] (init_state zero_state)).player.y
      = (FLOOR_Y : ℚ) := by decide!
  exact ⟨hy, (C13_actor_invariant zero_state _).2.1 hy⟩

/-! ## The inner scan of `update_pipes` -/

/-- The accumulator of the inner scan is its start value or a scanned slot to the right
of the start value. -/
theorem scan_fold_attained (pipes : List Pipe) (l : List Nat) (acc : ℚ × Int) :
    l.foldl
        (fun (acc : ℚ × Int) (j : Nat) =>
          match pipes[j]? with
          | none => acc
          | some q => if q.x > acc.1 then (q.x, q.y) else acc) acc = acc ∨
    ∃ k ∈ l, ∃ q, pipes[k]? = some q ∧ acc.1 < q.x ∧
      l.foldl
        (fun (acc : ℚ × Int) (j : Nat) =>
          match pipes[j]? with
          | none => acc
          | some q => if q.x > acc.1 then (q.x, q.y) else acc) acc = (q.x, q.y) := by
  induction l generalizing acc with
  | nil => left; rfl
  | cons i l ih =>
    rw [List.foldl_cons]
    generalize hacc : (match pipes[i]? with
        | none => acc
        | some q => if q.x > acc.1 then (q.x, q.y) else acc) = acc2
    have hstep : acc2 = acc ∨ ∃ q, pipes[i]? = some q ∧ acc.1 < q.x ∧ acc2 = (q.x, q.y) := by
      rw [← hacc]
      split
      · left; rfl
      · rename_i q hq
        split
        · rename_i hgt
          right
          exact ⟨q, hq, hgt, rfl⟩
        · left; rfl
    have hmono : acc.1 ≤ acc2.1 := by
      rcases hstep with h | ⟨q, _, hlt, h⟩
      · rw [h]
      · rw [h]; exact le_of_lt hlt
    rcases ih acc2 with h | ⟨k, hk, q, hq, hlt, h⟩
    · rcases hstep with h2 | ⟨q, hq, hlt, h2⟩
      · left; rw [h, h2]
      · right
        exact ⟨i, List.mem_cons_self _ _, q, hq, hlt, by rw [h, h2]⟩
    · right
      exact ⟨k, List.mem_cons_of_mem _ hk, q, hq, lt_of_le_of_lt hmono hlt, h⟩

/-- The scan result is `(0, 0)` or the position and gap centre of a slot right of 0. -/
theorem scan_max_attained (pipes : List Pipe) :
    scan_max pipes = (0, 0) ∨
    ∃ k q, k < PIPE_COUNT ∧ pipes[k]? = some q ∧ 0 < q.x ∧ scan_max pipes = (q.x, q.y) := by
  rcases scan_fold_attained pipes (List.range PIPE_COUNT) (0, 0) with h | ⟨k, hk, q, hq, hlt, h⟩
  · left; exact h
  · right
    exact ⟨k, q, List.mem_range.mp hk, hq, hlt, h⟩

theorem pool_at_scan_above (d : ℚ) (r : Nat → Nat) (pipes : List Pipe) (i : Nat) (p : Pipe)
    {k : Nat} (hk : i < k) : (pool_at_scan d r pipes i p)[k]? = pipes[k]? := by
  unfold pool_at_scan
  rw [List.getElem?_set_ne (by omega), update_pipes_upto_ge d r pipes (le_of_lt hk)]

theorem pool_at_scan_below (pipe_speed dt : ℚ) (r : Nat → Nat) (pipes : List Pipe) (i : Nat)
    (p : Pipe) (hi : i < PIPE_COUNT) {k : Nat} (hk : k < i) :
    (pool_at_scan (pipe_speed * dt) r pipes i p)[k]?
      = (update_pipes pipes pipe_speed dt r)[k]? := by
  unfold pool_at_scan
  rw [List.getElem?_set_ne (by omega), update_pipes_eq_upto,
    update_pipes_upto_lt _ _ _ hk, update_pipes_upto_lt _ _ _ (show k < PIPE_COUNT by omega)]

theorem pool_at_scan_self (d : ℚ) (r : Nat → Nat) (pipes : List Pipe) (i : Nat) (p : Pipe)
    (h : pipes[i]? = some p) :
    (pool_at_scan d r pipes i p)[i]? = some { p with lx := p.x, x := p.x - d } := by
  unfold pool_at_scan
  have hlt : i < pipes.length := (List.getElem?_eq_some.mp h).1
  rw [List.getElem?_set_self (by rw [update_pipes_upto_length]; exact hlt)]

/-! ## C11: where a recycled obstacle is placed -/

/-- C11 as stated fails when no obstacle is right of 0: in an update of the initial pool
with speed 15 and dt = 10 slot 0 moves to -86 and is recycled; the pool it scans
has x-positions -86 and -6, maximum -6, yet the new x is 35 = 0 + 35, not
-6 + 35 = 29. -/
theorem C11_counterexample :
    (init_state zero_state).pipes[0]? = some { x := 64, lx := 0, y := 24, scored := 0 } ∧
    (64 : ℚ) - 15 * 10 < -(PIPE_WIDTH : ℚ) ∧
    (pool_at_scan (15 * 10) (fun _ => 3) (init_state zero_state).pipes 0
        { x := 64, lx := 0, y := 24, scored := 0 }).map Pipe.x
      = [-86, -6, -6, -6, -6, -6, -6, -6] ∧
    (update_pipes (init_state zero_state).pipes 15 10 (fun _ => 3))[0]?
      = some { x := 35, lx := 35, y := 9, scored := 0 } ∧
    (35 : ℚ) ≠ -6 + ((PIPE_WIDTH + PIPE_SPACING : Int) : ℚ) := by
  refine ⟨by decide!, ?_, by decide!, by decide!, ?_⟩
  · norm_num [PIPE_WIDTH]
  · norm_num [PIPE_WIDTH, PIPE_SPACING]

/-- C11 (amended): when `update_pipes` recycles slot `i`, the scan runs over the pool as it
stands at that moment (`pool_at_scan`) starting from `nx = 0, ny = 0`. If some
obstacle of that pool is right of 0, the new x is `maxX + PIPE_WIDTH + PIPE_SPACING`
for the maximum `maxX` of the pool and the new gap centre is derived from the gap
centre of an obstacle holding the maximum; if none is, the new x is
`PIPE_WIDTH + PIPE_SPACING` and the gap centre is derived from 0. -/
theorem C11_recycle_placement (pipes : List Pipe) (pipe_speed dt : ℚ) (r : Nat → Nat)
    (i : Nat) (p : Pipe) (hi : i < PIPE_COUNT) (h : pipes[i]? = some p)
    (hrec : p.x - pipe_speed * dt < -(PIPE_WIDTH : ℚ)) :
    ∃ p2, (update_pipes pipes pipe_speed dt r)[i]? = some p2 ∧
      ((∃ k q, k < PIPE_COUNT ∧
          (pool_at_scan (pipe_speed * dt) r pipes i p)[k]? = some q ∧ 0 < q.x) →
        ∃ k q, k < PIPE_COUNT ∧
          (pool_at_scan (pipe_speed * dt) r pipes i p)[k]? = some q ∧
          (∀ k2 q2, k2 < PIPE_COUNT →
            (pool_at_scan (pipe_speed * dt) r pipes i p)[k2]? = some q2 → q2.x ≤ q.x) ∧
          p2.x = q.x + ((PIPE_WIDTH + PIPE_SPACING : Int) : ℚ) ∧
          p2.y = recycle_y q.y (r i)) ∧
      ((∀ k q, k < PIPE_COUNT →
          (pool_at_scan (pipe_speed * dt) r pipes i p)[k]? = some q → q.x ≤ 0) →
        p2.x = ((PIPE_WIDTH + PIPE_SPACING : Int) : ℚ) ∧ p2.y = recycle_y 0 (r i)) ∧
      (pool_at_scan (pipe_speed * dt) r pipes i p)[i]?
        = some { p with lx := p.x, x := p.x - pipe_speed * dt } ∧
      (∀ k, i < k → (pool_at_scan (pipe_speed * dt) r pipes i p)[k]? = pipes[k]?) ∧
      (∀ k, k < i → (pool_at_scan (pipe_speed * dt) r pipes i p)[k]?
        = (update_pipes pipes pipe_speed dt r)[k]?) := by
  have hget := update_pipes_getElem pipes pipe_speed dt r hi h
  rw [if_pos hrec] at hget
  refine ⟨_, hget, ?_, ?_, pool_at_scan_self _ r pipes i p h,
    fun k hk => pool_at_scan_above _ r pipes i p hk,
    fun k hk => pool_at_scan_below pipe_speed dt r pipes i p hi hk⟩
  · rintro ⟨k0, q0, hk0, hq0, hpos⟩
    rcases scan_max_attained (pool_at_scan (pipe_speed * dt) r pipes i p) with
      hz | ⟨k, q, hk, hq, _, hm⟩
    · have hle := scan_max_ge _ hk0 hq0
      rw [hz] at hle
      exact absurd hpos (not_lt.mpr hle)
    · refine ⟨k, q, hk, hq, ?_, ?_, ?_⟩
      · intro k2 q2 hk2 hq2
        have hle := scan_max_ge _ hk2 hq2
        rw [hm] at hle
        exact hle
      · show (scan_max (pool_at_scan (pipe_speed * dt) r pipes i p)).1 + _ = _
        rw [hm]
      · show recycle_y (scan_max (pool_at_scan (pipe_speed * dt) r pipes i p)).2 (r i) = _
        rw [hm]
  · intro hall
    rcases scan_max_attained (pool_at_scan (pipe_speed * dt) r pipes i p) with
      hz | ⟨k, q, hk, hq, hpos, _⟩
    · constructor
      · show (scan_max (pool_at_scan (pipe_speed * dt) r pipes i p)).1 + _ = _
        rw [hz]
        exact zero_add _
      · show recycle_y (scan_max (pool_at_scan (pipe_speed * dt) r pipes i p)).2 (r i) = _
        rw [hz]
    · exact absurd hpos (not_lt.mpr (hall k q hk hq))

/-- C11 (amended) at a concrete input: in the first update of the initial pool with
speed 15 and dt = 1/10 slot 1 is recycled; the scanned pool holds the moved slot 1
at -15/2 and the maximum 125/2 in slot 0, and the new x is 125/2 + 35. -/
theorem C11_recycle_placement_witness :
    (init_state zero_state).pipes[1]? = some { x := -6, lx := 0, y := 0, scored := 0 } ∧
    (-6 : ℚ) - 15 * (1 / 10) < -(PIPE_WIDTH : ℚ) ∧
    (pool_at_scan (15 * (1 / 10)) (fun _ => 3) (init_state zero_state).pipes 1
        { x := -6, lx := 0, y := 0, scored := 0 })[1]?
      = some { x := -6 - 15 * (1 / 10), lx := -6, y := 0, scored := 0 } ∧
    (update_pipes (init_state zero_state).pipes 15 (1 / 10) (fun _ => 3))[1]?
      = some { x := 125 / 2 + 35, lx := 125 / 2 + 35, y := 19, scored := 0 } := by
  have h0 : (init_state zero_state).pipes[1]?
      = some { x := -6, lx := 0, y := 0, scored := 0 } := by decide!
  have hr : (-6 : ℚ) - 15 * (1 / 10) < -(PIPE_WIDTH : ℚ) := by norm_num [PIPE_WIDTH]
  obtain ⟨p2, _, _, _, h3, _⟩ :=
    C11_recycle_placement (init_state zero_state).pipes 15 (1 / 10) (fun _ => 3) 1
      { x := -6, lx := 0, y := 0, scored := 0 } (by decide) h0 hr
  exact ⟨h0, hr, h3, by decide!⟩

/-! ## C15: the collision step does not depend on the pool order -/

/-- Overwriting one occurrence of `a` by `b` is, up to order, removing `a` and adding `b`. -/
theorem set_perm_cons_erase (l : List Pipe) (k : Nat) (a b : Pipe) (h : l[k]? = some a) :
    (l.set k b).Perm (b :: l.erase a) := by
  induction l generalizing k with
  | nil => simp at h
  | cons x xs ih =>
    cases k with
    | zero =>
      simp only [List.getElem?_cons_zero, Option.some.injEq] at h
      subst h
      rw [List.set_cons_zero, List.erase_cons_head]
    | succ k =>
      rw [List.getElem?_cons_succ] at h
      rw [List.set_cons_succ]
      have ih2 := ih k h
      by_cases hx : x = a
      · subst hx
        rw [List.erase_cons_head]
        have hmem : x ∈ xs := List.getElem?_mem h
        exact ((ih2.cons x).trans (List.Perm.swap b x _)).trans
          ((List.perm_cons_erase hmem).symm.cons b)
      · rw [List.erase_cons_tail (by simpa using hx)]
        exact (ih2.cons x).trans (List.Perm.swap b x _)

/-- Two pipes that both straddle the player's x are less than `PIPE_WIDTH` apart. -/
theorem straddles_close {player : Player} {p q : Pipe} (hp : straddles player p)
    (hq : straddles player q) : |p.x - q.x| < (PIPE_WIDTH : ℚ) := by
  unfold straddles at hp hq
  rw [abs_lt]
  constructor <;> linarith [hp.1, hp.2, hq.1, hq.2]

theorem straddles_at_of_mem {player : Player} {pipes : List Pipe} {a : Pipe}
    (hlen : pipes.length ≤ PIPE_COUNT) (hmem : a ∈ pipes) (hs : straddles player a) :
    ∃ j, j < PIPE_COUNT ∧ straddles_at player pipes j = true := by
  obtain ⟨j, hj⟩ := List.mem_iff_getElem?.mp hmem
  have hlt : j < pipes.length := (List.getElem?_eq_some.mp hj).1
  refine ⟨j, by omega, ?_⟩
  rw [straddles_at_some hj]
  exact decide_eq_true hs

/-- The straddle branch has the same effect, up to the pool order, wherever the pipe
sits in the pool. -/
theorem collide_at_perm (player : Player) (pipes pipes2 : List Pipe) (score : Int)
    (k k2 : Nat) (a : Pipe) (hperm : pipes2.Perm pipes)
    (hk : pipes[k]? = some a) (hk2 : pipes2[k2]? = some a) :
    (collide_at player pipes2 score k2 a).1 = (collide_at player pipes score k a).1 ∧
    (collide_at player pipes2 score k2 a).2.2 = (collide_at player pipes score k a).2.2 ∧
    (collide_at player pipes2 score k2 a).2.1.Perm (collide_at player pipes score k a).2.1 := by
  unfold collide_at
  by_cases hb : hits_body player a
  · rw [if_pos hb, if_pos hb]
    exact ⟨rfl, rfl, hperm⟩
  · rw [if_neg hb, if_neg hb]
    by_cases hs : a.scored = 0
    · rw [if_pos hs, if_pos hs]
      refine ⟨rfl, rfl, ?_⟩
      exact (set_perm_cons_erase pipes2 k2 a _ hk2).trans
        (((hperm.erase a).cons _).trans (set_perm_cons_erase pipes k a _ hk).symm)
    · rw [if_neg hs, if_neg hs]
      exact ⟨rfl, rfl, hperm⟩

/-- C15: in a pool whose obstacles are pairwise at least `PIPE_WIDTH` apart in x at most
one obstacle straddles the player's x, and `collide_player_with_pipes` run on any
permutation of the pool gives the same player, the same score and the same
obstacles with the same `scored` flags (the resulting pools are permutations of
each other). -/
theorem C15_order_independent (player : Player) (pipes pipes2 : List Pipe) (score : Int)
    (hlen : pipes.length ≤ PIPE_COUNT) (hperm : pipes2.Perm pipes)
    (hsep : ∀ (j k : Nat) (p q : Pipe), j ≠ k → pipes[j]? = some p → pipes[k]? = some q →
      (PIPE_WIDTH : ℚ) ≤ |p.x - q.x|) :
    (∀ (j k : Nat) (p q : Pipe), pipes[j]? = some p → pipes[k]? = some q →
      straddles player p → straddles player q → j = k) ∧
    (collide_player_with_pipes player pipes2 score).1
      = (collide_player_with_pipes player pipes score).1 ∧
    (collide_player_with_pipes player pipes2 score).2.2
      = (collide_player_with_pipes player pipes score).2.2 ∧
    (collide_player_with_pipes player pipes2 score).2.1.Perm
      (collide_player_with_pipes player pipes score).2.1 := by
  have huniq : ∀ (j k : Nat) (p q : Pipe), pipes[j]? = some p → pipes[k]? = some q →
      straddles player p → straddles player q → j = k := by
    intro j k p q hp hq hsp hsq
    by_contra hjk
    exact absurd (straddles_close hsp hsq) (not_lt.mpr (hsep j k p q hjk hp hq))
  have hval : ∀ p q, p ∈ pipes → q ∈ pipes → straddles player p → straddles player q →
      p = q := by
    intro p q hp hq hsp hsq
    obtain ⟨j, hj⟩ := List.mem_iff_getElem?.mp hp
    obtain ⟨k, hk⟩ := List.mem_iff_getElem?.mp hq
    have hjk := huniq j k p q hj hk hsp hsq
    subst hjk
    rw [hj] at hk
    exact Option.some.inj hk
  have hlen2 : pipes2.length ≤ PIPE_COUNT := by
    rw [hperm.length_eq]; exact hlen
  refine ⟨huniq, ?_⟩
  rcases collide_cases player pipes score with ⟨hno, hres⟩ | ⟨k, a, _, hk, hs, hres⟩
  · rcases collide_cases player pipes2 score with ⟨_, hres2⟩ | ⟨k2, a2, _, hk2, hs2, _⟩
    · rw [hres, hres2]
      exact ⟨rfl, rfl, hperm⟩
    · have hmem : a2 ∈ pipes := hperm.mem_iff.mp (List.getElem?_mem hk2)
      obtain ⟨j, hj, hst⟩ := straddles_at_of_mem hlen hmem hs2
      rw [hno j hj] at hst
      exact absurd hst (by decide)
  · rcases collide_cases player pipes2 score with ⟨hno2, _⟩ | ⟨k2, a2, _, hk2, hs2, hres2⟩
    · have hmem : a ∈ pipes2 := hperm.mem_iff.mpr (List.getElem?_mem hk)
      obtain ⟨j, hj, hst⟩ := straddles_at_of_mem hlen2 hmem hs
      rw [hno2 j hj] at hst
      exact absurd hst (by decide)
    · have hmem : a2 ∈ pipes := hperm.mem_iff.mp (List.getElem?_mem hk2)
      have heq : a2 = a := hval a2 a hmem (List.getElem?_mem hk) hs2 hs
      subst heq
      rw [hres, hres2]
      exact collide_at_perm player pipes pipes2 score k k2 a2 hperm hk hk2

/-- C15 at a concrete input: a pool of two obstacles 35 apart and the swapped pool; the
player at x = 10, y = 20 is in the gap of the obstacle at x = 8 and scores in both
orders. -/
theorem C15_order_independent_witness :
    (collide_player_with_pipes { x := 10, y := 20, ly := 19, vy := 5, dead := 0 }
        [{ x := 43, lx := 44, y := 20, scored := 0 }, { x := 8, lx := 9, y := 24, scored := 0 }]
        0).2.2
      = (collide_player_with_pipes { x := 10, y := 20, ly := 19, vy := 5, dead := 0 }
        [{ x := 8, lx := 9, y := 24, scored := 0 }, { x := 43, lx := 44, y := 20, scored := 0 }]
        0).2.2 ∧
    (collide_player_with_pipes { x := 10, y := 20, ly := 19, vy := 5, dead := 0 }
        [{ x := 8, lx := 9, y := 24, scored := 0 }, { x := 43, lx := 44, y := 20, scored := 0 }]
        0).2.2 = 1 := by
  refine ⟨(C15_order_independent { x := 10, y := 20, ly := 19, vy := 5, dead := 0 }
      [{ x := 8, lx := 9, y := 24, scored := 0 }, { x := 43, lx := 44, y := 20, scored := 0 }]
      [{ x := 43, lx := 44, y := 20, scored := 0 }, { x := 8, lx := 9, y := 24, scored := 0 }]
      0 (by decide) (List.Perm.swap _ _ _) ?_).2.2.1, by decide!⟩
  intro j k p q hjk hp hq
  rcases j with _ | _ | j <;> rcases k with _ | _ | k
  · exact absurd rfl hjk
  · simp only [List.getElem?_cons_zero, List.getElem?_cons_succ, Option.some.injEq] at hp hq
    subst hp; subst hq
    norm_num [PIPE_WIDTH]
  · simp at hq
  · simp only [List.getElem?_cons_zero, List.getElem?_cons_succ, Option.some.injEq] at hp hq
    subst hp; subst hq
    norm_num [PIPE_WIDTH]
  · exact absurd rfl hjk
  · simp at hq
  · simp at hp
  · simp at hp
  · simp at hp

/-! ## C14: exact spacing across a recycle -/

/-- C14 evaluated on the code: the pool reached from the initial state by one update with
speed 15 and dt = 4 has all obstacles active at 4, 39, ..., 249, exactly 35 apart.
The next update with speed 15 and dt = 1 recycles slot 0 before the rightmost
slot 7 has moved: slot 0 lands at 249 + 35 = 284 and slot 7 then moves to 234,
50 apart, so the pool is no longer exactly spaced. In the update after that
(dt = 2) slot 1 is recycled after the rightmost slot 0 has moved and lands
exactly 35 right of it. -/
theorem C14_recycle_breaks_exact_spacing :
    (run_update_pipes [{ pipe_speed := 15, dt := 4, r := fun _ => 3 }]
        (init_state zero_state).pipes).map Pipe.x
      = [4, 39, 74, 109, 144, 179, 214, 249] ∧
    (∀ q ∈ run_update_pipes [{ pipe_speed := 15, dt := 4, r := fun _ => 3 }]
        (init_state zero_state).pipes, active q) ∧
    exactly_spaced (run_update_pipes [{ pipe_speed := 15, dt := 4, r := fun _ => 3 }]
        (init_state zero_state).pipes) ∧
    (update_pipes (run_update_pipes [{ pipe_speed := 15, dt := 4, r := fun _ => 3 }]
        (init_state zero_state).pipes) 15 1 (fun _ => 3)).map Pipe.x
      = [284, 24, 59, 94, 129, 164, 199, 234] ∧
    sorted_xs (update_pipes (run_update_pipes [{ pipe_speed := 15, dt := 4, r := fun _ => 3 }]
        (init_state zero_state).pipes) 15 1 (fun _ => 3))
      = [24, 59, 94, 129, 164, 199, 234, 284] ∧
    ¬ exactly_spaced (update_pipes (run_update_pipes
        [{ pipe_speed := 15, dt := 4, r := fun _ => 3 }]
        (init_state zero_state).pipes) 15 1 (fun _ => 3)) ∧
    (update_pipes (update_pipes (run_update_pipes
        [{ pipe_speed := 15, dt := 4, r := fun _ => 3 }]
        (init_state zero_state).pipes) 15 1 (fun _ => 3)) 15 2 (fun _ => 3)).map Pipe.x
      = [254, 289, 29, 64, 99, 134, 169, 204] := by
  have hs1 : sorted_xs (run_update_pipes [{ pipe_speed := 15, dt := 4, r := fun _ => 3 }]
      (init_state zero_state).pipes) = [4, 39, 74, 109, 144, 179, 214, 249] := by decide!
  have hs2 : sorted_xs (update_pipes (run_update_pipes
      [{ pipe_speed := 15, dt := 4, r := fun _ => 3 }]
      (init_state zero_state).pipes) 15 1 (fun _ => 3))
      = [24, 59, 94, 129, 164, 199, 234, 284] := by decide!
  refine ⟨by decide!, by decide!, ?_, by decide!, hs2, ?_, by decide!⟩
  · unfold exactly_spaced
    rw [hs1]
    simp only [List.chain'_cons, List.chain'_singleton, and_true]
    norm_num [PIPE_WIDTH, PIPE_SPACING]
  · unfold exactly_spaced
    rw [hs2]
    simp only [List.chain'_cons, List.chain'_singleton, and_true]
    norm_num [PIPE_WIDTH, PIPE_SPACING]

/-! ## The cells covered by `put_rect` and `draw_single_pipe` -/

theorem mem_put_rect_iff {x y w h fill : Int} {c : Cell} :
    c ∈ put_rect x y w h fill ↔
      x ≤ WIDTH ∧ 0 < clipped_w x w ∧ 0 ≤ y ∧
      clipped_x x ≤ c.col ∧ c.col < clipped_x x + clipped_w x w ∧
      y ≤ c.row ∧ c.row < y + h ∧ c.ch = fill := by
  constructor
  · exact mem_put_rect
  · rintro ⟨hx, hw, hy, hc1, hc2, hr1, hr2, hch⟩
    unfold put_rect
    dsimp only
    rw [if_neg (not_lt.mpr hx), if_neg (not_le.mpr hw), List.mem_flatMap]
    refine ⟨(c.row - y).toNat, List.mem_range.mpr (by omega), ?_⟩
    rw [if_neg (not_lt.mpr hy), List.mem_map]
    refine ⟨(c.col - clipped_x x).toNat, List.mem_range.mpr (by omega), ?_⟩
    cases c with
    | mk row col ch =>
      dsimp only at hc1 hc2 hr1 hr2 hch
      have e1 : y + ((row - y).toNat : Int) = row := by omega
      have e2 : clipped_x x + ((col - clipped_x x).toNat : Int) = col := by omega
      rw [e1, e2, hch]

theorem painted_at_append (a b : List Cell) (row col : Int) :
    painted_at (a ++ b) row col ↔ painted_at a row col ∨ painted_at b row col := by
  unfold painted_at
  constructor
  · rintro ⟨c, hc, h⟩
    rcases List.mem_append.mp hc with hc | hc
    · exact Or.inl ⟨c, hc, h⟩
    · exact Or.inr ⟨c, hc, h⟩
  · rintro (⟨c, hc, h⟩ | ⟨c, hc, h⟩)
    · exact ⟨c, List.mem_append_left _ hc, h⟩
    · exact ⟨c, List.mem_append_right _ hc, h⟩

theorem painted_at_put_rect (x y w h fill row col : Int) :
    painted_at (put_rect x y w h fill) row col ↔
      x ≤ 64 ∧ 0 ≤ y ∧ 1 ≤ col ∧ x ≤ col ∧ col < x + w ∧ (x + w - 1 > 64 → col < 64) ∧
      y ≤ row ∧ row < y + h := by
  unfold painted_at
  constructor
  · rintro ⟨c, hc, hr, hcol⟩
    obtain ⟨h1, h2, h3, h4, h5, h6, h7, _⟩ := mem_put_rect hc
    rw [hr] at h6 h7
    rw [hcol] at h4 h5
    unfold clipped_x at h4 h5
    unfold clipped_w at h2 h5
    unfold WIDTH at *
    dsimp only at h2 h5
    refine ⟨h1, h3, ?_, ?_, ?_, ?_, h6, h7⟩ <;> split_ifs at h2 h4 h5 <;> omega
  · rintro ⟨h1, h3, h4, h5, h6, h7, h8, h9⟩
    refine ⟨{ row := row, col := col, ch := fill },
      mem_put_rect_iff.mpr ⟨h1, ?_, h3, ?_, ?_, h8, h9, rfl⟩, rfl, rfl⟩
    · unfold clipped_w WIDTH
      dsimp only
      split_ifs <;> omega
    · unfold clipped_x
      dsimp only
      split_ifs <;> omega
    · unfold clipped_x clipped_w WIDTH
      dsimp only
      split_ifs <;> omega

/-- The columns of a 5-wide rectangle at `X` are covered by the rectangles of widths 1, 3
and 1 at `X`, `X + 1` and `X + 4`, after clipping. -/
theorem body_columns_cover (X col : Int) (h1 : X ≤ 64) (h2 : 1 ≤ col) (h3 : X ≤ col)
    (h4 : col < X + 5) (h5 : X + 5 - 1 > 64 → col < 64) :
    (X ≤ 64 ∧ 1 ≤ col ∧ X ≤ col ∧ col < X + 1 ∧ (X + 1 - 1 > 64 → col < 64)) ∨
    (X + 1 ≤ 64 ∧ 1 ≤ col ∧ X + 1 ≤ col ∧ col < X + 1 + (5 - 2) ∧
      (X + 1 + (5 - 2) - 1 > 64 → col < 64)) ∨
    (X + 4 ≤ 64 ∧ 1 ≤ col ∧ X + 4 ≤ col ∧ col < X + 4 + 1 ∧
      (X + 4 + 1 - 1 > 64 → col < 64)) := by
  by_cases ha : col = X
  · left; omega
  · by_cases hb : col = X + 4
    · right; right; omega
    · right; left; omega

theorem erase_within_paint (p : Pipe) (hy1 : PIPE_GAP + 1 ≤ p.y) (hy2 : p.y ≤ FLOOR_Y - 1)
    (h1 : double_to_int (p.lx + 1) = double_to_int p.lx + 1)
    (h4 : double_to_int (p.lx + (PIPE_WIDTH : ℚ) - 1) = double_to_int p.lx + 4)
    (c : Cell) (hc : c ∈ erase_cells p) :
    painted_at (paint_cells { p with x := p.lx }) c.row c.col := by
  have hc2 : painted_at (erase_cells p) c.row c.col := ⟨c, hc, rfl, rfl⟩
  unfold erase_cells at hc2
  unfold paint_cells
  simp only [painted_at_append, painted_at_put_rect] at hc2 ⊢
  rw [h1, h4]
  generalize double_to_int p.lx = X at hc2 ⊢
  unfold PIPE_WIDTH FLOOR_Y PIPE_GAP at *
  rcases hc2 with ⟨e1, e2, e3, e4, e5, e6, e7, e8⟩ | ⟨e1, e2, e3, e4, e5, e6, e7, e8⟩
  · rcases body_columns_cover X c.col e1 e3 e4 e5 e6 with hcol | hcol | hcol
    · exact Or.inl (Or.inl (Or.inl (Or.inl (Or.inl (Or.inl (Or.inl
        ⟨hcol.1, e2, hcol.2.1, hcol.2.2.1, hcol.2.2.2.1, hcol.2.2.2.2, e7, e8⟩))))))
    · exact Or.inl (Or.inl (Or.inl (Or.inl (Or.inl (Or.inl (Or.inr
        ⟨hcol.1, e2, hcol.2.1, hcol.2.2.1, hcol.2.2.2.1, hcol.2.2.2.2, e7, e8⟩))))))
    · exact Or.inl (Or.inl (Or.inl (Or.inl (Or.inl (Or.inr
        ⟨hcol.1, e2, hcol.2.1, hcol.2.2.1, hcol.2.2.2.1, hcol.2.2.2.2, e7, e8⟩)))))
  · by_cases hrow : c.row < 1 + (p.y - 8 - 1)
    · rcases body_columns_cover X c.col e1 e3 e4 e5 e6 with hcol | hcol | hcol
      · exact Or.inl (Or.inl (Or.inl (Or.inl (Or.inr
          ⟨hcol.1, e2, hcol.2.1, hcol.2.2.1, hcol.2.2.2.1, hcol.2.2.2.2, e7, hrow⟩))))
      · exact Or.inl (Or.inl (Or.inl (Or.inr
          ⟨hcol.1, e2, hcol.2.1, hcol.2.2.1, hcol.2.2.2.1, hcol.2.2.2.2, e7, hrow⟩)))
      · exact Or.inl (Or.inl (Or.inr
          ⟨hcol.1, e2, hcol.2.1, hcol.2.2.1, hcol.2.2.2.1, hcol.2.2.2.2, e7, hrow⟩))
    · exact Or.inr ⟨e1, by omega, e3, e4, e5, e6, by omega, by omega⟩

theorem double_to_int_add_nat (q : ℚ) (hq : 0 ≤ q) (k : Nat) :
    double_to_int (q + (k : ℚ)) = double_to_int q + (k : Int) := by
  unfold double_to_int
  have hk : (0 : ℚ) ≤ (k : ℚ) := Nat.cast_nonneg k
  rw [if_pos hq, if_pos (add_nonneg hq hk), Int.floor_add_nat]

/-- For `lx ≥ 0` and a gap centre in `[PIPE_GAP + 1, FLOOR_Y - 1]` every cell blanked by
the erase step was painted when the obstacle was at `x = lx`. -/
theorem erase_within_paint_of_nonneg (p : Pipe) (hy1 : PIPE_GAP + 1 ≤ p.y)
    (hy2 : p.y ≤ FLOOR_Y - 1) (hlx : 0 ≤ p.lx) (c : Cell) (hc : c ∈ erase_cells p) :
    painted_at (paint_cells { p with x := p.lx }) c.row c.col := by
  apply erase_within_paint p hy1 hy2 _ _ c hc
  · have := double_to_int_add_nat p.lx hlx 1
    simpa using this
  · have := double_to_int_add_nat p.lx hlx 4
    have e : p.lx + (PIPE_WIDTH : ℚ) - 1 = p.lx + ((4 : Nat) : ℚ) := by
      norm_num [PIPE_WIDTH]
      ring
    rw [e, this]
    rfl

/-! ## C19: the erase step of `draw_single_pipe` -/

/-- C19 evaluated on the code: for the obstacle with `lx = -1/2`, `x = -1` and gap centre
24 (not recycled), the erase step blanks the cell in row 25, column 4, while
`draw_single_pipe` painted no cell in row 25, column 4 when the obstacle was at
`x = -1/2`: the body rectangles start at the truncations of `x`, `x + 1` and
`x + 4`, which are 0, 0 and 3 there, not 0, 1 and 4. For every obstacle with
`lx ≥ 0` and gap centre in `[PIPE_GAP + 1, FLOOR_Y - 1]` each erased cell was
painted at `x = lx`. -/
theorem C19_erase_outside_previous_paint :
    (PIPE_GAP + 1 ≤ (24 : Int) ∧ (24 : Int) ≤ FLOOR_Y - 1 ∧ ¬ ((-1 : ℚ) < -(PIPE_WIDTH : ℚ))) ∧
    ({ row := 25, col := 4, ch := 32 } : Cell)
      ∈ erase_cells { x := -1, lx := -1 / 2, y := 24, scored := 0 } ∧
    ¬ painted_at (paint_cells { x := -1 / 2, lx := -1 / 2, y := 24, scored := 0 }) 25 4 ∧
    (double_to_int (-1 / 2) = 0 ∧ double_to_int (-1 / 2 + 1) = 0 ∧
      double_to_int (-1 / 2 + (PIPE_WIDTH : ℚ) - 1) = 3) ∧
    (∀ p : Pipe, PIPE_GAP + 1 ≤ p.y → p.y ≤ FLOOR_Y - 1 → 0 ≤ p.lx →
      ∀ c ∈ erase_cells p, painted_at (paint_cells { p with x := p.lx }) c.row c.col) := by
  refine ⟨⟨by decide, by decide, by norm_num [PIPE_WIDTH]⟩, by decide!, ?_,
    ⟨by decide!, by decide!, by decide!⟩,
    fun p hy1 hy2 hlx c hc => erase_within_paint_of_nonneg p hy1 hy2 hlx c hc⟩
  have h : ∀ c ∈ paint_cells { x := -1 / 2, lx := -1 / 2, y := 24, scored := 0 },
      ¬ (c.row = 25 ∧ c.col = 4) := by decide!
  rintro ⟨c, hc, hrc⟩
  exact h c hc hrc

end Flap
